import Mathlib

/-!
Verification of the `FourlinkProtocol` quantum-repeater scenario
(`scenarios/three_satellites/fourlink.py`) against its specification.

The protocol logic (`setup`, `check`, `_get_pairs_between_stations`,
`_get_pairs_scheduled`, `_eval_pair`) is translated directly from the
source.  The collaborators that the source imports but that are not part
of the verified sources (World, EventQueue, Pair, SourceEvent,
EntanglementSwappingEvent, SchedulingSource) are modelled from the
specification, as noted on each definition.  Stations are identified by
natural-number ids; simulated times are rationals; the opaque
density-matrix states are represented by integer stand-ins, since the
protocol only moves them between registries and logs.
-/

/-- Modelled from the spec: a `Pair` references exactly two stations
(order-independent "between" relation), two qubits, a quantum state and
two resource-cost counters.  The state is an opaque value consumed only
by logging, represented here by an integer stand-in. -/
structure Pair where
  id : Nat
  stationA : Nat
  stationB : Nat
  qubitA : Nat
  qubitB : Nat
  state : Int
  resource_cost_max : Int
  resource_cost_add : Int
deriving DecidableEq, Repr

/-- Modelled from the spec: `Pair.is_between_stations(a, b)` is the
order-independent membership test used by the protocol. -/
def Pair.is_between_stations (p : Pair) (s1 s2 : Nat) : Bool :=
  (p.stationA == s1 && p.stationB == s2) || (p.stationA == s2 && p.stationB == s1)

/-- Modelled from the spec: a `SchedulingSource` has two target stations
and a `schedule_event` capability.  The externally sampled elapsed time
of a generation attempt (`time_distribution`) is abstracted as the
per-source value `delay`. -/
structure Source where
  id : Nat
  target1 : Nat
  target2 : Nat
  delay : ℚ
  has_schedule_event : Bool
deriving DecidableEq, Repr

/-- Modelled from the spec: the two pending-event kinds the protocol
inspects.  A `SourceEvent` keeps a reference to its originating source,
of which the protocol reads only the two target stations; an
`EntanglementSwappingEvent` references its two input pairs (by identity,
matching the Python `in event.pairs` identity test). -/
inductive Event where
  | sourceEvent (time : ℚ) (sourceId : Nat) (target1 target2 : Nat)
  | swapEvent (time : ℚ) (pairIds : List Nat)
deriving DecidableEq, Repr

/-- Scheduled time of an event (the ordering key of the queue). -/
def Event.time : Event → ℚ
  | Event.sourceEvent t _ _ _ => t
  | Event.swapEvent t _ => t

/-- Recognizer for `EntanglementSwappingEvent`s. -/
def Event.isSwap : Event → Bool
  | Event.swapEvent _ _ => true
  | _ => false

/-- Modelled from the spec: `EventQueue.add_event` inserts an event
keyed by (scheduled time, insertion sequence): the new event is placed
before the first strictly later event and after all events with equal or
earlier times (stable FIFO among equal times).  The
`InvalidScheduleError` path for past times is not modelled; no verified
claim schedules an event in the past. -/
def EventQueue.add_event : List Event → Event → List Event
  | [], e => [e]
  | x :: xs, e =>
      if e.time < x.time then e :: x :: xs else x :: EventQueue.add_event xs e

/-- Modelled from the spec: the `World` holds the event queue with its
current simulation time, the registry bucket `world_objects["Pair"]`
(`none` when the kind "Pair" has never been registered) and the live
qubit ids (the `world_objects["Qubit"]` bucket). -/
structure World where
  pair_objects : Option (List Pair)
  qubits : List Nat
  queue : List Event
  current_time : ℚ
deriving DecidableEq, Repr

/-- The `try/except KeyError` lookup of `world_objects["Pair"]` in
`_get_pairs_between_stations` (fourlink.py lines 96-99). -/
def getPairs (w : World) : List Pair :=
  match w.pair_objects with
  | none => []
  | some ps => ps

/-- `FourlinkProtocol._get_pairs_between_stations` (fourlink.py lines
95-100): all registered pairs between the two given stations. -/
def get_pairs_between_stations (w : World) (s1 s2 : Nat) : List Pair :=
  (getPairs w).filter (fun p => p.is_between_stations s1 s2)

/-- The filter predicate of `_get_pairs_scheduled` (fourlink.py lines
102-107): a `SourceEvent` whose source targets both given stations. -/
def source_pred (s1 s2 : Nat) (e : Event) : Bool :=
  match e with
  | Event.sourceEvent _ _ t1 t2 => (s1 == t1 || s1 == t2) && (s2 == t1 || s2 == t2)
  | Event.swapEvent _ _ => false

/-- `FourlinkProtocol._get_pairs_scheduled` (fourlink.py lines 102-107). -/
def get_pairs_scheduled (w : World) (s1 s2 : Nat) : List Event :=
  w.queue.filter (source_pred s1 s2)

/-- The duplicate-swap guard of `check` (fourlink.py lines 143-151):
does the pending queue already hold a swapping event referencing both
given pairs? -/
def swap_guard (lp rp : Nat) (e : Event) : Bool :=
  match e with
  | Event.sourceEvent _ _ _ _ => false
  | Event.swapEvent _ prs => prs.contains lp && prs.contains rp

/-- The `next(filter(...))` / `StopIteration` idiom of the guard,
as a boolean over the queue. -/
def already_scheduled (q : List Event) (lp rp : Nat) : Bool :=
  q.any (swap_guard lp rp)

/-- Modelled from the spec: `Source.schedule_event()` enqueues a
`SourceEvent` at `current_time + elapsed_time` that will materialize a
pair between the source's two target stations. -/
def schedule_event (src : Source) (w : World) : World :=
  let e := Event.sourceEvent (w.current_time + src.delay) src.id src.target1 src.target2
  { w with queue := EventQueue.add_event w.queue e }

/-- The replenishment inner loop `for _ in range(num_memories - link_used)`
(fourlink.py lines 136-137): `n` consecutive `schedule_event` calls. -/
def scheduleN (src : Source) : Nat → World → World
  | 0, w => w
  | n + 1, w => scheduleN src n (schedule_event src w)

/-- Modelled from the spec: `Qubit.destroy()` deregisters the qubit from
the world registry. -/
def destroy_qubit (w : World) (q : Nat) : World :=
  { w with qubits := w.qubits.filter (fun x => x != q) }

/-- Modelled from the spec: `Pair.destroy()` deregisters the pair from
the `world_objects["Pair"]` bucket. -/
def destroy_pair (w : World) (pid : Nat) : World :=
  { w with pair_objects := some ((getPairs w).filter (fun p => p.id != pid)) }

/-- The station labels `setup` stores on the protocol (fourlink.py lines
84-88) together with the `link_stations` attribute (line 93). -/
structure SetupData where
  station_ground_left : Nat
  sat_left : Nat
  sat_central : Nat
  sat_right : Nat
  station_ground_right : Nat
  link_stations : List (Nat × Nat)
deriving DecidableEq, Repr

/-- The `SetupData` produced by a successful `setup` on stations
`[a, b, c, d, e]`. -/
def mkSetup (a b c d e : Nat) : SetupData :=
  ⟨a, b, c, d, e, [(a, b), (b, c), (c, d), (d, e)]⟩

/-- The setup-failure kinds.  The source enforces these conditions with
`assert` statements (fourlink.py lines 83, 89, 92); the specification
names the count asserts `TopologyError` and the capability assert
`InterfaceError`, which this embedding adopts. -/
inductive SetupError where
  | topologyError
  | interfaceError
deriving DecidableEq, Repr

/-- `FourlinkProtocol.setup` (fourlink.py lines 82-93), with the assert
sites mapped to the specification's error names, in source order:
station count, then source count, then the per-source `schedule_event`
capability, then labeling and `link_stations` construction. -/
def setup (stations : List Nat) (sources : List Source) : Except SetupError SetupData :=
  if stations.length = 5 then
    if sources.length = 4 then
      if sources.all (fun s => s.has_schedule_event) then
        Except.ok (mkSetup (stations.getD 0 0) (stations.getD 1 0) (stations.getD 2 0)
          (stations.getD 3 0) (stations.getD 4 0))
      else Except.error SetupError.interfaceError
    else Except.error SetupError.topologyError
  else Except.error SetupError.topologyError

/-- The mutable protocol attributes set in `FourlinkProtocol.__init__`
(fourlink.py lines 72-80) that `check` reads and writes, together with
the world reference.  The external distance collaborator
(`libs.aux_functions.distance` over station positions) is abstracted as
the function `dist` on station ids, and the speed-of-light constant as
`lightspeed`. -/
structure ProtoState where
  num_memories : Nat
  time_list : List ℚ
  state_list : List Int
  resource_cost_max_list : List Int
  resource_cost_add_list : List Int
  sources : List Source
  world : World
  dist : Nat → Nat → ℚ
  lightspeed : ℚ

/-- The communication time computed by `_eval_pair` (fourlink.py lines
110-111): the larger propagation distance from the central satellite to
either ground station, divided by the speed of light. -/
def comm_time (sd : SetupData) (st : ProtoState) : ℚ :=
  max (st.dist sd.sat_central sd.station_ground_left)
      (st.dist sd.sat_central sd.station_ground_right) / st.lightspeed

/-- `FourlinkProtocol._eval_pair` (fourlink.py lines 109-117): append
the resolution time and the pair's state and resource-cost counters to
the four measurement logs. -/
def eval_pair (sd : SetupData) (st : ProtoState) (p : Pair) : ProtoState :=
  { st with
    time_list := st.time_list ++ [st.world.current_time + comm_time sd st],
    state_list := st.state_list ++ [p.state],
    resource_cost_max_list := st.resource_cost_max_list ++ [p.resource_cost_max],
    resource_cost_add_list := st.resource_cost_add_list ++ [p.resource_cost_add] }

/-- One iteration of the long-range cleanup loop (fourlink.py lines
196-201): evaluate the pair, destroy its two qubits and the pair. -/
def eval_step (sd : SetupData) (st : ProtoState) (p : Pair) : ProtoState :=
  let st1 := eval_pair sd st p
  let w1 := destroy_qubit st1.world p.qubitA
  let w2 := destroy_qubit w1 p.qubitB
  let w3 := destroy_pair w2 p.id
  { st1 with world := w3 }

/-- The `for long_range_pair in long_range_pairs` loop of `check`
(fourlink.py lines 196-201). -/
def eval_all (sd : SetupData) (lrps : List Pair) (st : ProtoState) : ProtoState :=
  lrps.foldl (eval_step sd) st

/-- The replenishment loop of `check` (fourlink.py lines 134-137):
`zip(links_used, self.sources)`, topping each under-capacity link up to
`num_memories` scheduled attempts. -/
def replenish (nm : Nat) (links_used : List Nat) (sources : List Source) (w : World) : World :=
  (links_used.zip sources).foldl
    (fun wacc ls => if ls.1 < nm then scheduleN ls.2 (nm - ls.1) wacc else wacc) w

/-- One swapping loop of `check` (fourlink.py lines 141-154, 158-171,
179-192): for each zipped (left, right) pair combination, schedule an
`EntanglementSwappingEvent` at the current time unless one referencing
both pairs is already pending. -/
def do_swaps (w : World) (combos : List (Pair × Pair)) : World :=
  combos.foldl
    (fun wacc c =>
      if already_scheduled wacc.queue c.1.id c.2.id then wacc
      else
        let e := Event.swapEvent wacc.current_time [c.1.id, c.2.id]
        { wacc with queue := EventQueue.add_event wacc.queue e }) w

/-- The non-recursive body of `FourlinkProtocol.check` (fourlink.py
lines 129-192): replenishment, then the left, right and central
swapping passes.  List indexing `pairs_links[i]` is rendered with
`getD`, which agrees with the source whenever `link_stations` has the
length 4 that `setup` guarantees. -/
def check_body (sd : SetupData) (st : ProtoState) : ProtoState :=
  let w := st.world
  let pairs_links := sd.link_stations.map (fun ls => get_pairs_between_stations w ls.1 ls.2)
  let num_pairs_links := pairs_links.map List.length
  let num_pairs_scheduled_links :=
    sd.link_stations.map (fun ls => (get_pairs_scheduled w ls.1 ls.2).length)
  let links_used := List.zipWith (fun a b => a + b) num_pairs_links num_pairs_scheduled_links
  let w1 := replenish st.num_memories links_used st.sources w
  let w2 :=
    if num_pairs_links.getD 0 0 ≠ 0 ∧ num_pairs_links.getD 1 0 ≠ 0 then
      do_swaps w1 ((pairs_links.getD 0 []).zip (pairs_links.getD 1 []))
    else w1
  let w3 :=
    if num_pairs_links.getD 2 0 ≠ 0 ∧ num_pairs_links.getD 3 0 ≠ 0 then
      do_swaps w2 ((pairs_links.getD 2 []).zip (pairs_links.getD 3 []))
    else w2
  let left_pairs := get_pairs_between_stations w3 sd.station_ground_left sd.sat_central
  let right_pairs := get_pairs_between_stations w3 sd.sat_central sd.station_ground_right
  let w4 :=
    if left_pairs.length ≠ 0 ∧ right_pairs.length ≠ 0 then
      do_swaps w3 (left_pairs.zip right_pairs)
    else w3
  { st with world := w4 }

/-- `FourlinkProtocol.check` with explicit recursion fuel: run the body,
and if any long-range pair exists (fourlink.py lines 194-202), evaluate
and destroy them all and re-invoke `check`.  `none` would mean the fuel
was exhausted before the recursion ended; the termination theorem shows
fuel 2 always suffices. -/
def checkFuel (sd : SetupData) : Nat → ProtoState → Option ProtoState
  | 0, _ => none
  | n + 1, st =>
    let st1 := check_body sd st
    let lrps := get_pairs_between_stations st1.world sd.station_ground_left sd.station_ground_right
    if lrps = [] then some st1
    else checkFuel sd n (eval_all sd lrps st1)

/-- `FourlinkProtocol.check` (fourlink.py lines 129-202). -/
def check (sd : SetupData) (st : ProtoState) : ProtoState :=
  (checkFuel sd 2 st).getD st

/-- The long-range pairs found by the evaluation step of one `check`
invocation (fourlink.py line 194). -/
def lrpsOf (sd : SetupData) (st : ProtoState) : List Pair :=
  get_pairs_between_stations (check_body sd st).world
    sd.station_ground_left sd.station_ground_right

/-- The failure kind of `check()` before `setup()`.  The source fails
on the missing `link_stations` attribute (fourlink.py line 130, set only
at line 93); the specification names this `NotInitializedError`. -/
inductive CheckError where
  | notInitializedError
deriving DecidableEq, Repr

/-- Modelled from the spec: entry point of `check` on a protocol whose
setup-derived attributes may not exist yet.  `FourlinkProtocol.__init__`
leaves them unset (`none`); accessing them before `setup()` fails, which
the specification calls `NotInitializedError`. -/
def check_entry (osd : Option SetupData) (st : ProtoState) : Except CheckError ProtoState :=
  match osd with
  | none => Except.error CheckError.notInitializedError
  | some sd => Except.ok (check sd st)

/-- `FourlinkProtocol.__init__` (fourlink.py lines 72-80): fresh logs,
no setup-derived attributes yet. -/
def fourlink_new (nm : Nat) (sources : List Source) (w : World)
    (d : Nat → Nat → ℚ) (c : ℚ) : Option SetupData × ProtoState :=
  (none, ⟨nm, [], [], [], [], sources, w, d, c⟩)

/-- Per-link usage count as computed in `check` (fourlink.py lines
130-133): existing pairs between the link's stations plus pending
source events targeting them. -/
def link_used (sd : SetupData) (w : World) (i : Nat) : Nat :=
  let ls := sd.link_stations.getD i (0, 0)
  (get_pairs_between_stations w ls.1 ls.2).length + (get_pairs_scheduled w ls.1 ls.2).length

/-- Number of pending `EntanglementSwappingEvent`s. -/
def swap_count (w : World) : Nat :=
  (w.queue.filter Event.isSwap).length

/-- Number of pending `SourceEvent`s that originate from the source with
the given id. -/
def source_event_count (w : World) (sid : Nat) : Nat :=
  (w.queue.filter (fun e => match e with
    | Event.sourceEvent _ s _ _ => s == sid
    | Event.swapEvent _ _ => false)).length

/-- The `pairs_links[i]` list of `check` (fourlink.py line 130),
with the source's list indexing rendered as `getD`. -/
def pairs_link (sd : SetupData) (w : World) (i : Nat) : List Pair :=
  (sd.link_stations.map (fun ls => get_pairs_between_stations w ls.1 ls.2)).getD i []

/-- The `links_used` list of `check` (fourlink.py lines 130-133). -/
def links_used_list (sd : SetupData) (w : World) : List Nat :=
  List.zipWith (fun a b => a + b)
    ((sd.link_stations.map (fun ls => get_pairs_between_stations w ls.1 ls.2)).map List.length)
    (sd.link_stations.map (fun ls => (get_pairs_scheduled w ls.1 ls.2).length))

/-- The `left_pairs` list of the central swapping pass (fourlink.py
line 173). -/
def central_left (sd : SetupData) (w : World) : List Pair :=
  get_pairs_between_stations w sd.station_ground_left sd.sat_central

/-- The `right_pairs` list of the central swapping pass (fourlink.py
line 174). -/
def central_right (sd : SetupData) (w : World) : List Pair :=
  get_pairs_between_stations w sd.sat_central sd.station_ground_right

/-- The world produced by one `check_body` run, in canonical
unconditional form: replenishment, then the three swapping passes, each
with its (possibly empty) combination list read off the entry world. -/
def check_body_world (nm : Nat) (srcs : List Source) (sd : SetupData) (w : World) : World :=
  let wr := replenish nm (links_used_list sd w) srcs w
  let wl := do_swaps wr ((pairs_link sd w 0).zip (pairs_link sd w 1))
  let wrr := do_swaps wl ((pairs_link sd w 2).zip (pairs_link sd w 3))
  do_swaps wrr ((central_left sd w).zip (central_right sd w))

/-- All (left, right) pair combinations that the three swapping passes
of one `check_body` run iterate over, read off the entry world. -/
def combos (sd : SetupData) (w : World) : List (Pair × Pair) :=
  (pairs_link sd w 0).zip (pairs_link sd w 1)
    ++ (pairs_link sd w 2).zip (pairs_link sd w 3)
    ++ (central_left sd w).zip (central_right sd w)

/-- One iteration of the replenishment loop over `zip(links_used,
sources)` (fourlink.py lines 134-137), as a standalone function. -/
def repl_step (nm u : Nat) (t : Source) (w : World) : World :=
  if u < nm then scheduleN t (nm - u) w else w

/-- Two pairs both on link 1 of the reference chain: an over-capacity
world for `num_memories = 1`. -/
def exPairX : Pair := ⟨1, 0, 1, 41, 42, 0, 0, 0⟩

/-- Second pair on link 1 of the reference chain. -/
def exPairY : Pair := ⟨2, 0, 1, 43, 44, 0, 0, 0⟩

/-- A world with two pairs already on link 1 and an empty queue. -/
def exWorldC1 : World := ⟨some [exPairX, exPairY], [41, 42, 43, 44], [], 0⟩

/-- A resolved pair on link 1 of the reference chain. -/
def exPair1 : Pair := ⟨1, 0, 1, 31, 32, 0, 0, 0⟩

/-- A resolved pair on link 2 of the reference chain, sharing station 1
with `exPair1`. -/
def exPair2 : Pair := ⟨2, 1, 2, 33, 34, 0, 0, 0⟩

/-- A world holding exactly one pair on link 1 and one on link 2, with
an empty event queue. -/
def exWorldC5 : World := ⟨some [exPair1, exPair2], [31, 32, 33, 34], [], 0⟩

/-- Concrete well-formed source quadruple for the reference chain
`[0, 1, 2, 3, 4]`: one source per adjacent station pair. -/
def exSources : List Source :=
  [⟨10, 0, 1, 0, true⟩, ⟨11, 1, 2, 0, true⟩, ⟨12, 2, 3, 0, true⟩, ⟨13, 3, 4, 0, true⟩]

/-- The setup result for the reference chain `[0, 1, 2, 3, 4]`. -/
def exSd : SetupData := mkSetup 0 1 2 3 4

/-- Fresh world: no Pair registry entry, no qubits, empty queue,
time zero. -/
def exWorld0 : World := ⟨none, [], [], 0⟩

/-- Protocol state right after `__init__` and `setup` on the reference
chain, with the given memory capacity and world. -/
def exState (nm : Nat) (w : World) : ProtoState :=
  ⟨nm, [], [], [], [], exSources, w, fun _ _ => 0, 1⟩

/-- A long-range pair spanning the two ground stations of the reference
chain, with its two qubits. -/
def exPairLR : Pair := ⟨1, 0, 4, 7, 8, 5, 3, 2⟩

/-- A world holding exactly the one long-range pair and its qubits. -/
def exWorldLR : World := ⟨some [exPairLR], [7, 8], [], 0⟩

theorem scheduleN_pair_objects (src : Source) :
    ∀ (n : Nat) (w : World), (scheduleN src n w).pair_objects = w.pair_objects
  | 0, _ => rfl
  | n + 1, w => scheduleN_pair_objects src n (schedule_event src w)

theorem scheduleN_current_time (src : Source) :
    ∀ (n : Nat) (w : World), (scheduleN src n w).current_time = w.current_time
  | 0, _ => rfl
  | n + 1, w => scheduleN_current_time src n (schedule_event src w)

theorem scheduleN_qubits (src : Source) :
    ∀ (n : Nat) (w : World), (scheduleN src n w).qubits = w.qubits
  | 0, _ => rfl
  | n + 1, w => scheduleN_qubits src n (schedule_event src w)

theorem replenish_pair_objects (nm : Nat) (lu : List Nat) (srcs : List Source) (w : World) :
    (replenish nm lu srcs w).pair_objects = w.pair_objects := by
  unfold replenish
  induction lu.zip srcs generalizing w with
  | nil => rfl
  | cons x xs ih =>
    rw [List.foldl_cons, ih]
    split
    · exact scheduleN_pair_objects _ _ _
    · rfl

theorem replenish_current_time (nm : Nat) (lu : List Nat) (srcs : List Source) (w : World) :
    (replenish nm lu srcs w).current_time = w.current_time := by
  unfold replenish
  induction lu.zip srcs generalizing w with
  | nil => rfl
  | cons x xs ih =>
    rw [List.foldl_cons, ih]
    split
    · exact scheduleN_current_time _ _ _
    · rfl

theorem replenish_qubits (nm : Nat) (lu : List Nat) (srcs : List Source) (w : World) :
    (replenish nm lu srcs w).qubits = w.qubits := by
  unfold replenish
  induction lu.zip srcs generalizing w with
  | nil => rfl
  | cons x xs ih =>
    rw [List.foldl_cons, ih]
    split
    · exact scheduleN_qubits _ _ _
    · rfl

theorem do_swaps_pair_objects (cs : List (Pair × Pair)) (w : World) :
    (do_swaps w cs).pair_objects = w.pair_objects := by
  unfold do_swaps
  induction cs generalizing w with
  | nil => rfl
  | cons x xs ih =>
    rw [List.foldl_cons, ih]
    split <;> rfl

theorem do_swaps_current_time (cs : List (Pair × Pair)) (w : World) :
    (do_swaps w cs).current_time = w.current_time := by
  unfold do_swaps
  induction cs generalizing w with
  | nil => rfl
  | cons x xs ih =>
    rw [List.foldl_cons, ih]
    split <;> rfl

theorem do_swaps_qubits (cs : List (Pair × Pair)) (w : World) :
    (do_swaps w cs).qubits = w.qubits := by
  unfold do_swaps
  induction cs generalizing w with
  | nil => rfl
  | cons x xs ih =>
    rw [List.foldl_cons, ih]
    split <;> rfl

theorem get_pairs_congr {w1 w2 : World} (h : w1.pair_objects = w2.pair_objects)
    (s1 s2 : Nat) : get_pairs_between_stations w1 s1 s2 = get_pairs_between_stations w2 s1 s2 := by
  unfold get_pairs_between_stations getPairs
  rw [h]

theorem getD_map_length {α : Type} :
    ∀ (L : List (List α)) (i : Nat), (L.map List.length).getD i 0 = (L.getD i []).length
  | [], i => by simp
  | x :: xs, 0 => rfl
  | x :: xs, i + 1 => getD_map_length xs i

/-- Canonical form of `check_body`: the three conditional swapping
passes are unconditional `do_swaps` applications (an omitted pass has an
empty combination list), and the central lists are read off the entry
world, whose pairs the body never changes. -/
theorem check_body_eq (sd : SetupData) (st : ProtoState) :
    check_body sd st
      = { st with world := check_body_world st.num_memories st.sources sd st.world } := by
  unfold check_body check_body_world
  simp only [pairs_link, links_used_list, central_left, central_right]
  set w1 := replenish st.num_memories _ st.sources st.world with hw1
  have hpo1 : w1.pair_objects = st.world.pair_objects := replenish_pair_objects _ _ _ _
  set pl := (sd.link_stations.map
    (fun ls => get_pairs_between_stations st.world ls.1 ls.2)) with hpl
  have hz : ∀ i j : Nat,
      ¬ ((pl.map List.length).getD i 0 ≠ 0 ∧ (pl.map List.length).getD j 0 ≠ 0) →
      (pl.getD i []).zip (pl.getD j []) = [] := by
    intro i j h
    rcases Decidable.em ((pl.map List.length).getD i 0 = 0) with hi | hi
    · rw [getD_map_length] at hi
      rw [List.length_eq_zero] at hi
      rw [hi, List.zip_nil_left]
    · rcases Decidable.em ((pl.map List.length).getD j 0 = 0) with hj | hj
      · rw [getD_map_length] at hj
        rw [List.length_eq_zero] at hj
        rw [hj, List.zip_nil_right]
      · exact absurd ⟨hi, hj⟩ h
  have h2 : (if (pl.map List.length).getD 0 0 ≠ 0 ∧ (pl.map List.length).getD 1 0 ≠ 0 then
        do_swaps w1 ((pl.getD 0 []).zip (pl.getD 1 []))
      else w1) = do_swaps w1 ((pl.getD 0 []).zip (pl.getD 1 [])) := by
    split
    · rfl
    · rename_i h
      rw [hz 0 1 h]
      rfl
  rw [h2]
  set w2 := do_swaps w1 ((pl.getD 0 []).zip (pl.getD 1 [])) with hw2
  have hpo2 : w2.pair_objects = st.world.pair_objects := by
    rw [hw2, do_swaps_pair_objects, hpo1]
  have h3 : (if (pl.map List.length).getD 2 0 ≠ 0 ∧ (pl.map List.length).getD 3 0 ≠ 0 then
        do_swaps w2 ((pl.getD 2 []).zip (pl.getD 3 []))
      else w2) = do_swaps w2 ((pl.getD 2 []).zip (pl.getD 3 [])) := by
    split
    · rfl
    · rename_i h
      rw [hz 2 3 h]
      rfl
  rw [h3]
  set w3 := do_swaps w2 ((pl.getD 2 []).zip (pl.getD 3 [])) with hw3
  have hpo3 : w3.pair_objects = st.world.pair_objects := by
    rw [hw3, do_swaps_pair_objects, hpo2]
  have hcl : get_pairs_between_stations w3 sd.station_ground_left sd.sat_central
      = get_pairs_between_stations st.world sd.station_ground_left sd.sat_central :=
    get_pairs_congr hpo3 _ _
  have hcr : get_pairs_between_stations w3 sd.sat_central sd.station_ground_right
      = get_pairs_between_stations st.world sd.sat_central sd.station_ground_right :=
    get_pairs_congr hpo3 _ _
  rw [hcl, hcr]
  split
  · rfl
  · rename_i h
    rcases Decidable.em ((get_pairs_between_stations st.world sd.station_ground_left
        sd.sat_central).length = 0) with hi | hi
    · rw [List.length_eq_zero] at hi
      rw [hi, List.zip_nil_left]
      rfl
    · rcases Decidable.em ((get_pairs_between_stations st.world sd.sat_central
          sd.station_ground_right).length = 0) with hj | hj
      · rw [List.length_eq_zero] at hj
        rw [hj, List.zip_nil_right]
        rfl
      · exact absurd ⟨hi, hj⟩ h

theorem check_body_world_pair_objects (sd : SetupData) (st : ProtoState) :
    (check_body sd st).world.pair_objects = st.world.pair_objects := by
  rw [check_body_eq]
  show (check_body_world st.num_memories st.sources sd st.world).pair_objects = _
  unfold check_body_world
  simp only [do_swaps_pair_objects, replenish_pair_objects]

theorem check_body_world_current_time (sd : SetupData) (st : ProtoState) :
    (check_body sd st).world.current_time = st.world.current_time := by
  rw [check_body_eq]
  show (check_body_world st.num_memories st.sources sd st.world).current_time = _
  unfold check_body_world
  simp only [do_swaps_current_time, replenish_current_time]

theorem check_body_world_qubits (sd : SetupData) (st : ProtoState) :
    (check_body sd st).world.qubits = st.world.qubits := by
  rw [check_body_eq]
  show (check_body_world st.num_memories st.sources sd st.world).qubits = _
  unfold check_body_world
  simp only [do_swaps_qubits, replenish_qubits]

theorem check_body_time_list (sd : SetupData) (st : ProtoState) :
    (check_body sd st).time_list = st.time_list := by
  rw [check_body_eq]

theorem check_body_state_list (sd : SetupData) (st : ProtoState) :
    (check_body sd st).state_list = st.state_list := by
  rw [check_body_eq]

theorem check_body_rc_max_list (sd : SetupData) (st : ProtoState) :
    (check_body sd st).resource_cost_max_list = st.resource_cost_max_list := by
  rw [check_body_eq]

theorem check_body_rc_add_list (sd : SetupData) (st : ProtoState) :
    (check_body sd st).resource_cost_add_list = st.resource_cost_add_list := by
  rw [check_body_eq]

theorem eval_step_pairs (sd : SetupData) (st : ProtoState) (p : Pair) :
    getPairs (eval_step sd st p).world = (getPairs st.world).filter (fun q => q.id != p.id) := by
  unfold eval_step destroy_pair destroy_qubit eval_pair getPairs
  rfl

theorem eval_step_queue (sd : SetupData) (st : ProtoState) (p : Pair) :
    (eval_step sd st p).world.queue = st.world.queue := rfl

theorem eval_step_current_time (sd : SetupData) (st : ProtoState) (p : Pair) :
    (eval_step sd st p).world.current_time = st.world.current_time := rfl

theorem eval_all_pairs (sd : SetupData) :
    ∀ (l : List Pair) (st : ProtoState),
      getPairs (eval_all sd l st).world
        = (getPairs st.world).filter (fun p => l.all (fun q => p.id != q.id)) := by
  intro l
  induction l with
  | nil => intro st; simp [eval_all]
  | cons hd tl ih =>
    intro st
    show getPairs (eval_all sd tl (eval_step sd st hd)).world = _
    rw [ih, eval_step_pairs, List.filter_filter]
    apply List.filter_congr
    intro p _
    simp only [List.all_cons, Bool.and_comm]

theorem eval_all_queue (sd : SetupData) :
    ∀ (l : List Pair) (st : ProtoState), (eval_all sd l st).world.queue = st.world.queue := by
  intro l
  induction l with
  | nil => intro st; rfl
  | cons hd tl ih =>
    intro st
    show (eval_all sd tl (eval_step sd st hd)).world.queue = _
    rw [ih, eval_step_queue]

theorem eval_all_current_time (sd : SetupData) :
    ∀ (l : List Pair) (st : ProtoState),
      (eval_all sd l st).world.current_time = st.world.current_time := by
  intro l
  induction l with
  | nil => intro st; rfl
  | cons hd tl ih =>
    intro st
    show (eval_all sd tl (eval_step sd st hd)).world.current_time = _
    rw [ih, eval_step_current_time]

/-- With all long-range pairs destroyed in the cleanup loop, a further
long-range query finds none: the self-recursion of `check` terminates. -/
theorem lrps_after_eval (sd : SetupData) (st : ProtoState) (a b : Nat) :
    get_pairs_between_stations
      (eval_all sd (get_pairs_between_stations st.world a b) st).world a b = [] := by
  unfold get_pairs_between_stations
  rw [eval_all_pairs]
  rw [List.filter_filter, List.filter_eq_nil_iff]
  intro p hp
  simp only [Bool.and_eq_true, List.all_eq_true]
  rintro ⟨hbet, hall⟩
  have hself := hall p (List.mem_filter.mpr ⟨hp, hbet⟩)
  simp at hself

/-- C3: `check()` terminates for every finite world state: recursion
fuel 2 always suffices (the single cleanup pass destroys every
long-range pair, so the immediate re-invocation finds none and stops),
and extra fuel never changes the result. -/
theorem checkFuel_succ (sd : SetupData) (n : Nat) (st : ProtoState) :
    checkFuel sd (n + 1) st
      = if get_pairs_between_stations (check_body sd st).world
            sd.station_ground_left sd.station_ground_right = [] then
          some (check_body sd st)
        else
          checkFuel sd n (eval_all sd (get_pairs_between_stations (check_body sd st).world
            sd.station_ground_left sd.station_ground_right) (check_body sd st)) := rfl

/-- With no long-range pair in the world, one unit of fuel completes
`check`: the body runs and the recursion is not taken. -/
theorem checkFuel_of_no_lrps (sd : SetupData) (k : Nat) (s2 : ProtoState)
    (h2 : get_pairs_between_stations s2.world
      sd.station_ground_left sd.station_ground_right = []) :
    checkFuel sd (k + 1) s2 = some (check_body sd s2) := by
  rw [checkFuel_succ]
  have hc : get_pairs_between_stations (check_body sd s2).world
      sd.station_ground_left sd.station_ground_right = [] := by
    rw [get_pairs_congr (check_body_world_pair_objects sd s2) sd.station_ground_left
      sd.station_ground_right]
    exact h2
  simp [hc]

theorem C3_check_terminates (sd : SetupData) (st : ProtoState) :
    (checkFuel sd 2 st).isSome = true
    ∧ ∀ n : Nat, checkFuel sd (n + 2) st = checkFuel sd 2 st := by
  have hdone := checkFuel_of_no_lrps sd
  have key : ∀ m : Nat,
      checkFuel sd (m + 2) st = checkFuel sd 2 st ∧ (checkFuel sd 2 st).isSome = true := by
    intro m
    rw [show m + 2 = (m + 1) + 1 from rfl, checkFuel_succ, checkFuel_succ sd 1 st]
    split
    · exact ⟨rfl, rfl⟩
    · set st1 := check_body sd st with hst1
      set lrps := get_pairs_between_stations st1.world sd.station_ground_left
        sd.station_ground_right with hlrps
      have hempty : get_pairs_between_stations
          (eval_all sd lrps st1).world sd.station_ground_left sd.station_ground_right = [] :=
        lrps_after_eval sd st1 _ _
      rw [hdone m _ hempty, hdone 0 _ hempty]
      exact ⟨rfl, rfl⟩
  exact ⟨(key 0).2, fun n => (key n).1⟩

theorem getPairs_congr {w1 w2 : World} (h : w1.pair_objects = w2.pair_objects) :
    getPairs w1 = getPairs w2 := by
  unfold getPairs
  rw [h]

theorem check_body_dist (sd : SetupData) (st : ProtoState) :
    (check_body sd st).dist = st.dist := by
  rw [check_body_eq]

theorem check_body_lightspeed (sd : SetupData) (st : ProtoState) :
    (check_body sd st).lightspeed = st.lightspeed := by
  rw [check_body_eq]

theorem check_body_num_memories (sd : SetupData) (st : ProtoState) :
    (check_body sd st).num_memories = st.num_memories := by
  rw [check_body_eq]

theorem check_body_sources (sd : SetupData) (st : ProtoState) :
    (check_body sd st).sources = st.sources := by
  rw [check_body_eq]

theorem comm_time_check_body (sd : SetupData) (st : ProtoState) :
    comm_time sd (check_body sd st) = comm_time sd st := by
  unfold comm_time
  rw [check_body_dist, check_body_lightspeed]

theorem eval_step_time_list (sd : SetupData) (st : ProtoState) (p : Pair) :
    (eval_step sd st p).time_list
      = st.time_list ++ [st.world.current_time + comm_time sd st] := rfl

theorem eval_step_state_list (sd : SetupData) (st : ProtoState) (p : Pair) :
    (eval_step sd st p).state_list = st.state_list ++ [p.state] := rfl

theorem eval_step_rc_max_list (sd : SetupData) (st : ProtoState) (p : Pair) :
    (eval_step sd st p).resource_cost_max_list
      = st.resource_cost_max_list ++ [p.resource_cost_max] := rfl

theorem eval_step_rc_add_list (sd : SetupData) (st : ProtoState) (p : Pair) :
    (eval_step sd st p).resource_cost_add_list
      = st.resource_cost_add_list ++ [p.resource_cost_add] := rfl

theorem eval_step_dist (sd : SetupData) (st : ProtoState) (p : Pair) :
    (eval_step sd st p).dist = st.dist := rfl

theorem eval_step_lightspeed (sd : SetupData) (st : ProtoState) (p : Pair) :
    (eval_step sd st p).lightspeed = st.lightspeed := rfl

theorem eval_step_num_memories (sd : SetupData) (st : ProtoState) (p : Pair) :
    (eval_step sd st p).num_memories = st.num_memories := rfl

theorem eval_step_sources (sd : SetupData) (st : ProtoState) (p : Pair) :
    (eval_step sd st p).sources = st.sources := rfl

theorem comm_time_eval_step (sd : SetupData) (st : ProtoState) (p : Pair) :
    comm_time sd (eval_step sd st p) = comm_time sd st := rfl

theorem eval_all_time_list (sd : SetupData) :
    ∀ (l : List Pair) (st : ProtoState),
      (eval_all sd l st).time_list
        = st.time_list ++ l.map (fun _ => st.world.current_time + comm_time sd st) := by
  intro l
  induction l with
  | nil => intro st; simp [eval_all]
  | cons hd tl ih =>
    intro st
    show (eval_all sd tl (eval_step sd st hd)).time_list = _
    rw [ih, eval_step_time_list, comm_time_eval_step, eval_step_current_time]
    simp

theorem eval_all_state_list (sd : SetupData) :
    ∀ (l : List Pair) (st : ProtoState),
      (eval_all sd l st).state_list = st.state_list ++ l.map Pair.state := by
  intro l
  induction l with
  | nil => intro st; simp [eval_all]
  | cons hd tl ih =>
    intro st
    show (eval_all sd tl (eval_step sd st hd)).state_list = _
    rw [ih, eval_step_state_list]
    simp

theorem eval_all_rc_max_list (sd : SetupData) :
    ∀ (l : List Pair) (st : ProtoState),
      (eval_all sd l st).resource_cost_max_list
        = st.resource_cost_max_list ++ l.map Pair.resource_cost_max := by
  intro l
  induction l with
  | nil => intro st; simp [eval_all]
  | cons hd tl ih =>
    intro st
    show (eval_all sd tl (eval_step sd st hd)).resource_cost_max_list = _
    rw [ih, eval_step_rc_max_list]
    simp

theorem eval_all_rc_add_list (sd : SetupData) :
    ∀ (l : List Pair) (st : ProtoState),
      (eval_all sd l st).resource_cost_add_list
        = st.resource_cost_add_list ++ l.map Pair.resource_cost_add := by
  intro l
  induction l with
  | nil => intro st; simp [eval_all]
  | cons hd tl ih =>
    intro st
    show (eval_all sd tl (eval_step sd st hd)).resource_cost_add_list = _
    rw [ih, eval_step_rc_add_list]
    simp

theorem eval_all_num_memories (sd : SetupData) :
    ∀ (l : List Pair) (st : ProtoState), (eval_all sd l st).num_memories = st.num_memories := by
  intro l
  induction l with
  | nil => intro st; rfl
  | cons hd tl ih =>
    intro st
    show (eval_all sd tl (eval_step sd st hd)).num_memories = _
    rw [ih, eval_step_num_memories]

theorem eval_all_sources (sd : SetupData) :
    ∀ (l : List Pair) (st : ProtoState), (eval_all sd l st).sources = st.sources := by
  intro l
  induction l with
  | nil => intro st; rfl
  | cons hd tl ih =>
    intro st
    show (eval_all sd tl (eval_step sd st hd)).sources = _
    rw [ih, eval_step_sources]

theorem eval_all_qubits (sd : SetupData) :
    ∀ (l : List Pair) (st : ProtoState),
      (eval_all sd l st).world.qubits
        = st.world.qubits.filter
            (fun x => l.all (fun q => x != q.qubitA && x != q.qubitB)) := by
  intro l
  induction l with
  | nil => intro st; simp [eval_all]
  | cons hd tl ih =>
    intro st
    show (eval_all sd tl (eval_step sd st hd)).world.qubits = _
    rw [ih]
    have hq : (eval_step sd st hd).world.qubits
        = st.world.qubits.filter (fun x => x != hd.qubitA && x != hd.qubitB) := by
      show ((st.world.qubits.filter (fun x => x != hd.qubitA)).filter
        (fun x => x != hd.qubitB)) = _
      rw [List.filter_filter]
      apply List.filter_congr
      intro x _
      rw [Bool.and_comm]
    rw [hq, List.filter_filter]
    apply List.filter_congr
    intro x _
    simp only [List.all_cons]
    rw [Bool.and_comm]

/-- Every qubit of an evaluated long-range pair is deregistered by the
cleanup loop. -/
theorem eval_all_qubit_gone (sd : SetupData) (l : List Pair) (st : ProtoState) (p : Pair)
    (hp : p ∈ l) :
    p.qubitA ∉ (eval_all sd l st).world.qubits ∧ p.qubitB ∉ (eval_all sd l st).world.qubits := by
  rw [eval_all_qubits]
  constructor
  · intro hmem
    have := (List.mem_filter.mp hmem).2
    rw [List.all_eq_true] at this
    have hx := this p hp
    simp at hx
  · intro hmem
    have := (List.mem_filter.mp hmem).2
    rw [List.all_eq_true] at this
    have hx := this p hp
    simp at hx

/-- Every evaluated long-range pair is deregistered by the cleanup
loop: no surviving registered pair carries its identity. -/
theorem eval_all_pair_gone (sd : SetupData) (l : List Pair) (st : ProtoState) (p : Pair)
    (hp : p ∈ l) :
    ∀ q ∈ getPairs (eval_all sd l st).world, q.id ≠ p.id := by
  intro q hq
  rw [eval_all_pairs] at hq
  have := (List.mem_filter.mp hq).2
  rw [List.all_eq_true] at this
  have hx := this p hp
  simpa using hx

/-- Unfolding of `check`: the body runs once, and when its long-range
query is non-empty the evaluated pairs are destroyed and the body runs
a second (final) time. -/
theorem check_eq (sd : SetupData) (st : ProtoState) :
    check sd st
      = if lrpsOf sd st = [] then check_body sd st
        else check_body sd (eval_all sd (lrpsOf sd st) (check_body sd st)) := by
  unfold check
  rw [checkFuel_succ sd 1 st]
  show (if lrpsOf sd st = [] then some (check_body sd st)
    else checkFuel sd 1 (eval_all sd (lrpsOf sd st) (check_body sd st))).getD st = _
  split
  · rfl
  · have hemp : get_pairs_between_stations
        (eval_all sd (lrpsOf sd st) (check_body sd st)).world
        sd.station_ground_left sd.station_ground_right = [] :=
      lrps_after_eval sd (check_body sd st) sd.station_ground_left sd.station_ground_right
    rw [show (1 : Nat) = 0 + 1 from rfl, checkFuel_of_no_lrps sd 0 _ hemp]
    rfl

theorem check_time_list (sd : SetupData) (st : ProtoState) :
    (check sd st).time_list
      = st.time_list ++ (lrpsOf sd st).map (fun _ => st.world.current_time + comm_time sd st) := by
  rw [check_eq]
  split
  · rename_i h
    rw [h, check_body_time_list]
    simp
  · rw [check_body_time_list, eval_all_time_list, check_body_time_list,
      check_body_world_current_time, comm_time_check_body]

theorem check_state_list (sd : SetupData) (st : ProtoState) :
    (check sd st).state_list = st.state_list ++ (lrpsOf sd st).map Pair.state := by
  rw [check_eq]
  split
  · rename_i h
    rw [h, check_body_state_list]
    simp
  · rw [check_body_state_list, eval_all_state_list, check_body_state_list]

theorem check_rc_max_list (sd : SetupData) (st : ProtoState) :
    (check sd st).resource_cost_max_list
      = st.resource_cost_max_list ++ (lrpsOf sd st).map Pair.resource_cost_max := by
  rw [check_eq]
  split
  · rename_i h
    rw [h, check_body_rc_max_list]
    simp
  · rw [check_body_rc_max_list, eval_all_rc_max_list, check_body_rc_max_list]

theorem check_rc_add_list (sd : SetupData) (st : ProtoState) :
    (check sd st).resource_cost_add_list
      = st.resource_cost_add_list ++ (lrpsOf sd st).map Pair.resource_cost_add := by
  rw [check_eq]
  split
  · rename_i h
    rw [h, check_body_rc_add_list]
    simp
  · rw [check_body_rc_add_list, eval_all_rc_add_list, check_body_rc_add_list]

/-- C6: every pair found between the two chain endpoints when `check()`
reaches its evaluation step is logged — the resolution time
`current_time` plus the larger central-satellite-to-ground propagation
delay, then its state and its two resource-cost counters — and is then
destroyed together with both of its qubits. -/
theorem C6_long_range_evaluation (sd : SetupData) (st : ProtoState) (p : Pair)
    (hp : p ∈ lrpsOf sd st) :
    (check sd st).time_list
        = st.time_list ++ (lrpsOf sd st).map (fun _ => st.world.current_time + comm_time sd st)
    ∧ (check sd st).state_list = st.state_list ++ (lrpsOf sd st).map Pair.state
    ∧ (check sd st).resource_cost_max_list
        = st.resource_cost_max_list ++ (lrpsOf sd st).map Pair.resource_cost_max
    ∧ (check sd st).resource_cost_add_list
        = st.resource_cost_add_list ++ (lrpsOf sd st).map Pair.resource_cost_add
    ∧ (∀ q ∈ getPairs (check sd st).world, q.id ≠ p.id)
    ∧ p.qubitA ∉ (check sd st).world.qubits
    ∧ p.qubitB ∉ (check sd st).world.qubits := by
  have hne : lrpsOf sd st ≠ [] := List.ne_nil_of_mem hp
  have hch : check sd st = check_body sd (eval_all sd (lrpsOf sd st) (check_body sd st)) := by
    rw [check_eq, if_neg hne]
  refine ⟨check_time_list sd st, check_state_list sd st, check_rc_max_list sd st,
    check_rc_add_list sd st, ?_, ?_, ?_⟩
  · intro q hq
    rw [hch] at hq
    rw [getPairs_congr (check_body_world_pair_objects sd _)] at hq
    exact eval_all_pair_gone sd (lrpsOf sd st) (check_body sd st) p hp q hq
  · rw [hch, check_body_world_qubits]
    exact (eval_all_qubit_gone sd (lrpsOf sd st) (check_body sd st) p hp).1
  · rw [hch, check_body_world_qubits]
    exact (eval_all_qubit_gone sd (lrpsOf sd st) (check_body sd st) p hp).2

/-- C7: across any number of `check()` calls the four measurement logs
only grow, and they keep equal lengths whenever they start equal. -/
theorem C7_logs_monotone (sd : SetupData) (st : ProtoState) (n : Nat)
    (h : st.time_list.length = st.state_list.length
      ∧ st.time_list.length = st.resource_cost_max_list.length
      ∧ st.time_list.length = st.resource_cost_add_list.length) :
    (∃ t1, ((check sd)^[n] st).time_list = st.time_list ++ t1)
    ∧ (∃ t2, ((check sd)^[n] st).state_list = st.state_list ++ t2)
    ∧ (∃ t3, ((check sd)^[n] st).resource_cost_max_list = st.resource_cost_max_list ++ t3)
    ∧ (∃ t4, ((check sd)^[n] st).resource_cost_add_list = st.resource_cost_add_list ++ t4)
    ∧ ((check sd)^[n] st).time_list.length = ((check sd)^[n] st).state_list.length
    ∧ ((check sd)^[n] st).time_list.length
        = ((check sd)^[n] st).resource_cost_max_list.length
    ∧ ((check sd)^[n] st).time_list.length
        = ((check sd)^[n] st).resource_cost_add_list.length := by
  induction n with
  | zero =>
    refine ⟨⟨[], ?_⟩, ⟨[], ?_⟩, ⟨[], ?_⟩, ⟨[], ?_⟩, h.1, h.2.1, h.2.2⟩ <;> simp
  | succ m ih =>
    obtain ⟨⟨t1, h1⟩, ⟨t2, h2⟩, ⟨t3, h3⟩, ⟨t4, h4⟩, hl1, hl2, hl3⟩ := ih
    rw [Function.iterate_succ_apply']
    set s := (check sd)^[m] st with hs
    refine ⟨⟨t1 ++ (lrpsOf sd s).map (fun _ => s.world.current_time + comm_time sd s), ?_⟩,
      ⟨t2 ++ (lrpsOf sd s).map Pair.state, ?_⟩,
      ⟨t3 ++ (lrpsOf sd s).map Pair.resource_cost_max, ?_⟩,
      ⟨t4 ++ (lrpsOf sd s).map Pair.resource_cost_add, ?_⟩, ?_, ?_, ?_⟩
    · rw [check_time_list, h1, List.append_assoc]
    · rw [check_state_list, h2, List.append_assoc]
    · rw [check_rc_max_list, h3, List.append_assoc]
    · rw [check_rc_add_list, h4, List.append_assoc]
    · rw [check_time_list, check_state_list]
      simp [hl1]
    · rw [check_time_list, check_rc_max_list]
      simp [hl2]
    · rw [check_time_list, check_rc_add_list]
      simp [hl3]

/-- C8: `setup()` fails with `TopologyError` when the station list does
not have length 5 or the source list does not have length 4, fails with
`InterfaceError` when the counts are right but some source lacks the
`schedule_event` capability, and otherwise returns the station labels
and the four adjacent link station pairs. -/
theorem C8_setup_validation (stations : List Nat) (sources : List Source) :
    (¬ (stations.length = 5 ∧ sources.length = 4) →
      setup stations sources = Except.error SetupError.topologyError)
    ∧ (stations.length = 5 → sources.length = 4 →
        (∃ s ∈ sources, s.has_schedule_event = false) →
        setup stations sources = Except.error SetupError.interfaceError)
    ∧ (stations.length = 5 → sources.length = 4 →
        (∀ s ∈ sources, s.has_schedule_event = true) →
        setup stations sources = Except.ok (mkSetup (stations.getD 0 0) (stations.getD 1 0)
          (stations.getD 2 0) (stations.getD 3 0) (stations.getD 4 0))) := by
  refine ⟨?_, ?_, ?_⟩
  · intro h
    unfold setup
    rcases Decidable.em (stations.length = 5) with h5 | h5
    · rcases Decidable.em (sources.length = 4) with h4 | h4
      · exact absurd ⟨h5, h4⟩ h
      · simp [h5, h4]
    · simp [h5]
  · intro h5 h4 ⟨s, hs, hcap⟩
    unfold setup
    have hall : sources.all (fun s => s.has_schedule_event) = false := by
      rw [List.all_eq_false]
      exact ⟨s, hs, by simp [hcap]⟩
    simp [h5, h4, hall]
  · intro h5 h4 hall
    unfold setup
    have hall' : sources.all (fun s => s.has_schedule_event) = true := by
      rw [List.all_eq_true]
      exact hall
    simp [h5, h4, hall']

/-- Witness for C8: all three branches at concrete inputs. -/
theorem C8_setup_validation_witness :
    setup [0, 1, 2] [] = Except.error SetupError.topologyError
    ∧ setup [0, 1, 2, 3, 4] [⟨0, 0, 1, 0, false⟩, ⟨1, 1, 2, 0, true⟩,
        ⟨2, 2, 3, 0, true⟩, ⟨3, 3, 4, 0, true⟩] = Except.error SetupError.interfaceError
    ∧ setup [0, 1, 2, 3, 4] [⟨0, 0, 1, 0, true⟩, ⟨1, 1, 2, 0, true⟩,
        ⟨2, 2, 3, 0, true⟩, ⟨3, 3, 4, 0, true⟩] = Except.ok (mkSetup 0 1 2 3 4) := by
  refine ⟨?_, ?_, ?_⟩
  · exact (C8_setup_validation [0, 1, 2] []).1 (by decide)
  · exact (C8_setup_validation _ _).2.1 rfl rfl ⟨⟨0, 0, 1, 0, false⟩, by decide, rfl⟩
  · exact (C8_setup_validation _ _).2.2 rfl rfl (by decide)

/-- C9: calling `check()` on a freshly constructed protocol, before
`setup()` has ever run, fails with `NotInitializedError`. -/
theorem C9_check_requires_setup (nm : Nat) (sources : List Source) (w : World)
    (d : Nat → Nat → ℚ) (c : ℚ) :
    check_entry (fourlink_new nm sources w d c).1 (fourlink_new nm sources w d c).2
      = Except.error CheckError.notInitializedError := rfl

/-- C10: when the world registry has no entry of kind "Pair",
`_get_pairs_between_stations` returns the empty list (the `KeyError` is
caught), for any two stations. -/
theorem C10_missing_pair_registry (w : World) (s1 s2 : Nat)
    (h : w.pair_objects = none) :
    get_pairs_between_stations w s1 s2 = [] := by
  unfold get_pairs_between_stations getPairs
  rw [h]
  rfl

/-- Witness for C10 at a concrete pair-free world. -/
theorem C10_missing_pair_registry_witness :
    (⟨none, [], [], 0⟩ : World).pair_objects = none
    ∧ get_pairs_between_stations ⟨none, [], [], 0⟩ 0 4 = [] :=
  ⟨rfl, C10_missing_pair_registry ⟨none, [], [], 0⟩ 0 4 rfl⟩

/-- C4: on the reference scenario (5 stations in a line, 4 sources,
`num_memories = 2`, no pairs, empty queue), `setup()` succeeds and a
single `check()` schedules exactly 2 SourceEvents per source (8 pending
events total), no swapping event, and leaves all four measurement logs
empty. -/
theorem C4_initial_scenario :
    setup [0, 1, 2, 3, 4] exSources = Except.ok exSd
    ∧ source_event_count (check exSd (exState 2 exWorld0)).world 10 = 2
    ∧ source_event_count (check exSd (exState 2 exWorld0)).world 11 = 2
    ∧ source_event_count (check exSd (exState 2 exWorld0)).world 12 = 2
    ∧ source_event_count (check exSd (exState 2 exWorld0)).world 13 = 2
    ∧ (check exSd (exState 2 exWorld0)).world.queue.length = 8
    ∧ swap_count (check exSd (exState 2 exWorld0)).world = 0
    ∧ (check exSd (exState 2 exWorld0)).time_list = []
    ∧ (check exSd (exState 2 exWorld0)).state_list = []
    ∧ (check exSd (exState 2 exWorld0)).resource_cost_max_list = []
    ∧ (check exSd (exState 2 exWorld0)).resource_cost_add_list = [] := by
  refine ⟨rfl, ?_, ?_, ?_, ?_, ?_, ?_, ?_, ?_, ?_, ?_⟩ <;> with_unfolding_all decide

/-- Witness for C6 at a world holding one long-range pair: the pair is
found by the evaluation step and its first qubit is deregistered. -/
theorem C6_long_range_evaluation_witness :
    exPairLR ∈ lrpsOf exSd (exState 1 exWorldLR)
    ∧ exPairLR.qubitA ∉ (check exSd (exState 1 exWorldLR)).world.qubits :=
  ⟨by with_unfolding_all decide,
    (C6_long_range_evaluation exSd (exState 1 exWorldLR) exPairLR
      (by with_unfolding_all decide)).2.2.2.2.2.1⟩

/-- Witness for C7 on the fresh reference state, one `check()` call. -/
theorem C7_logs_monotone_witness :
    ((exState 2 exWorld0).time_list.length = (exState 2 exWorld0).state_list.length
      ∧ (exState 2 exWorld0).time_list.length
          = (exState 2 exWorld0).resource_cost_max_list.length
      ∧ (exState 2 exWorld0).time_list.length
          = (exState 2 exWorld0).resource_cost_add_list.length)
    ∧ ((check exSd)^[1] (exState 2 exWorld0)).time_list.length
        = ((check exSd)^[1] (exState 2 exWorld0)).state_list.length :=
  ⟨by decide, (C7_logs_monotone exSd (exState 2 exWorld0) 1 (by decide)).2.2.2.2.1⟩

theorem countP_add_event (p : Event → Bool) (q : List Event) (e : Event) :
    (EventQueue.add_event q e).countP p = q.countP p + (if p e then 1 else 0) := by
  induction q with
  | nil => simp [EventQueue.add_event, List.countP_cons, List.countP_nil]
  | cons x xs ih =>
    unfold EventQueue.add_event
    split
    · simp only [List.countP_cons]
    · simp only [List.countP_cons, ih]
      omega

theorem any_add_event (p : Event → Bool) (q : List Event) (e : Event) :
    (EventQueue.add_event q e).any p = (q.any p || p e) := by
  induction q with
  | nil => simp [EventQueue.add_event]
  | cons x xs ih =>
    unfold EventQueue.add_event
    split
    · show (e :: x :: xs).any p = _
      simp only [List.any_cons]
      cases p e <;> cases p x <;> cases xs.any p <;> rfl
    · show (x :: EventQueue.add_event xs e).any p = _
      simp only [List.any_cons, ih]
      cases p e <;> cases p x <;> cases xs.any p <;> rfl

theorem mem_add_event {q : List Event} {e a : Event} :
    a ∈ EventQueue.add_event q e ↔ a ∈ q ∨ a = e := by
  induction q with
  | nil => simp [EventQueue.add_event]
  | cons x xs ih =>
    unfold EventQueue.add_event
    split
    · simp only [List.mem_cons]
      tauto
    · simp only [List.mem_cons, ih]
      tauto

theorem scheduleN_countP (p : Event → Bool) (src : Source) :
    ∀ (n : Nat) (w : World),
      (scheduleN src n w).queue.countP p
        = w.queue.countP p + n * (if p (Event.sourceEvent (w.current_time + src.delay)
            src.id src.target1 src.target2) then 1 else 0) := by
  intro n
  induction n with
  | zero => intro w; simp [scheduleN]
  | succ m ih =>
    intro w
    show (scheduleN src m (schedule_event src w)).queue.countP p = _
    rw [ih]
    have hq : (schedule_event src w).queue.countP p
        = w.queue.countP p + (if p (Event.sourceEvent (w.current_time + src.delay)
            src.id src.target1 src.target2) then 1 else 0) :=
      countP_add_event p w.queue _
    have hct : (schedule_event src w).current_time = w.current_time := rfl
    rw [hct, hq]
    cases hp : p (Event.sourceEvent (w.current_time + src.delay)
        src.id src.target1 src.target2) <;> simp <;> try omega

theorem scheduleN_already_scheduled (src : Source) (lp rp : Nat) :
    ∀ (n : Nat) (w : World),
      already_scheduled (scheduleN src n w).queue lp rp
        = already_scheduled w.queue lp rp := by
  intro n
  induction n with
  | zero => intro w; rfl
  | succ m ih =>
    intro w
    show already_scheduled (scheduleN src m (schedule_event src w)).queue lp rp = _
    rw [ih]
    unfold already_scheduled
    show (EventQueue.add_event w.queue _).any _ = _
    rw [any_add_event]
    simp [swap_guard]

theorem scheduleN_mem (src : Source) :
    ∀ (n : Nat) (w : World) (a : Event), a ∈ (scheduleN src n w).queue →
      a ∈ w.queue ∨ a = Event.sourceEvent (w.current_time + src.delay)
        src.id src.target1 src.target2 := by
  intro n
  induction n with
  | zero => intro w a h; exact Or.inl h
  | succ m ih =>
    intro w a h
    have h1 := ih (schedule_event src w) a h
    have hct : (schedule_event src w).current_time = w.current_time := rfl
    rw [hct] at h1
    rcases h1 with h1 | h1
    · have h2 := mem_add_event.mp h1
      exact h2
    · exact Or.inr h1

theorem replenish_countP_source_false (p : Event → Bool)
    (hp : ∀ (t : ℚ) (sid t1 t2 : Nat), p (Event.sourceEvent t sid t1 t2) = false)
    (nm : Nat) (lu : List Nat) (srcs : List Source) (w : World) :
    (replenish nm lu srcs w).queue.countP p = w.queue.countP p := by
  unfold replenish
  induction lu.zip srcs generalizing w with
  | nil => rfl
  | cons x xs ih =>
    rw [List.foldl_cons, ih]
    split
    · rw [scheduleN_countP]
      simp [hp]
    · rfl

theorem replenish_already_scheduled (nm : Nat) (lu : List Nat) (srcs : List Source)
    (w : World) (lp rp : Nat) :
    already_scheduled (replenish nm lu srcs w).queue lp rp
      = already_scheduled w.queue lp rp := by
  unfold replenish
  induction lu.zip srcs generalizing w with
  | nil => rfl
  | cons x xs ih =>
    rw [List.foldl_cons, ih]
    split
    · rw [scheduleN_already_scheduled]
    · rfl

theorem replenish_mem (nm : Nat) (lu : List Nat) (srcs : List Source) (a : Event) :
    ∀ w : World, a ∈ (replenish nm lu srcs w).queue → a ∈ w.queue ∨ a.isSwap = false := by
  unfold replenish
  induction lu.zip srcs with
  | nil => intro w h; exact Or.inl h
  | cons x xs ih =>
    intro w h
    rw [List.foldl_cons] at h
    rcases ih _ h with h1 | h1
    · split at h1
      · rcases scheduleN_mem x.2 _ _ a h1 with h2 | h2
        · exact Or.inl h2
        · rw [h2]
          exact Or.inr rfl
      · exact Or.inl h1
    · exact Or.inr h1

theorem do_swaps_cons (w : World) (hd : Pair × Pair) (tl : List (Pair × Pair)) :
    do_swaps w (hd :: tl)
      = do_swaps (if already_scheduled w.queue hd.1.id hd.2.id then w
          else { w with queue := EventQueue.add_event w.queue (Event.swapEvent w.current_time [hd.1.id, hd.2.id]) }) tl := rfl

theorem do_swaps_already_mono (cs : List (Pair × Pair)) :
    ∀ (w : World) (lp rp : Nat), already_scheduled w.queue lp rp = true →
      already_scheduled (do_swaps w cs).queue lp rp = true := by
  induction cs with
  | nil => intro w lp rp h; exact h
  | cons hd tl ih =>
    intro w lp rp h
    rw [do_swaps_cons]
    apply ih
    split
    · exact h
    · unfold already_scheduled
      show (EventQueue.add_event w.queue _).any _ = true
      rw [any_add_event]
      unfold already_scheduled at h
      simp [h]

theorem do_swaps_coverage (cs : List (Pair × Pair)) :
    ∀ (w : World), ∀ c ∈ cs,
      already_scheduled (do_swaps w cs).queue c.1.id c.2.id = true := by
  induction cs with
  | nil => intro w c hc; cases hc
  | cons hd tl ih =>
    intro w c hc
    rw [do_swaps_cons]
    rcases List.mem_cons.mp hc with hceq | hctl
    · subst hceq
      apply do_swaps_already_mono
      split
      · rename_i hg
        exact hg
      · unfold already_scheduled
        show (EventQueue.add_event w.queue
          (Event.swapEvent w.current_time [c.1.id, c.2.id])).any _ = true
        rw [any_add_event]
        simp [swap_guard]
    · exact ih _ c hctl

theorem do_swaps_noadd (cs : List (Pair × Pair)) :
    ∀ w : World, (∀ c ∈ cs, already_scheduled w.queue c.1.id c.2.id = true) →
      do_swaps w cs = w := by
  induction cs with
  | nil => intro w _; rfl
  | cons hd tl ih =>
    intro w h
    rw [do_swaps_cons, if_pos (h hd (List.mem_cons_self hd tl))]
    exact ih w (fun c hc => h c (List.mem_cons_of_mem hd hc))

theorem do_swaps_countP_swap_false (p : Event → Bool)
    (hp : ∀ (t : ℚ) (prs : List Nat), p (Event.swapEvent t prs) = false)
    (cs : List (Pair × Pair)) :
    ∀ w : World, (do_swaps w cs).queue.countP p = w.queue.countP p := by
  induction cs with
  | nil => intro w; rfl
  | cons hd tl ih =>
    intro w
    rw [do_swaps_cons, ih]
    split
    · rfl
    · show (EventQueue.add_event w.queue _).countP p = _
      rw [countP_add_event]
      simp [hp]

theorem do_swaps_mem (cs : List (Pair × Pair)) :
    ∀ (w : World) (a : Event), a ∈ (do_swaps w cs).queue →
      a ∈ w.queue ∨ ∃ c ∈ cs, a = Event.swapEvent w.current_time [c.1.id, c.2.id] := by
  induction cs with
  | nil => intro w a h; exact Or.inl h
  | cons hd tl ih =>
    intro w a h
    rw [do_swaps_cons] at h
    rcases ih _ a h with h1 | ⟨c, hc, he⟩
    · split at h1
      · exact Or.inl h1
      · rcases mem_add_event.mp h1 with h2 | h2
        · exact Or.inl h2
        · exact Or.inr ⟨hd, List.mem_cons_self hd tl, h2⟩
    · split at he
      · exact Or.inr ⟨c, List.mem_cons_of_mem hd hc, he⟩
      · exact Or.inr ⟨c, List.mem_cons_of_mem hd hc, he⟩

theorem pairs_link_congr {w1 w2 : World} (h : w1.pair_objects = w2.pair_objects)
    (sd : SetupData) (i : Nat) : pairs_link sd w1 i = pairs_link sd w2 i := by
  unfold pairs_link
  have hf : (fun ls : Nat × Nat => get_pairs_between_stations w1 ls.1 ls.2)
      = fun ls : Nat × Nat => get_pairs_between_stations w2 ls.1 ls.2 :=
    funext fun ls => get_pairs_congr h ls.1 ls.2
  rw [hf]

theorem combos_congr {w1 w2 : World} (h : w1.pair_objects = w2.pair_objects)
    (sd : SetupData) : combos sd w1 = combos sd w2 := by
  unfold combos central_left central_right
  rw [pairs_link_congr h, pairs_link_congr h, pairs_link_congr h, pairs_link_congr h,
    get_pairs_congr h, get_pairs_congr h]

theorem check_body_world_eq (nm : Nat) (srcs : List Source) (sd : SetupData) (w : World) :
    check_body_world nm srcs sd w
      = do_swaps (do_swaps (do_swaps (replenish nm (links_used_list sd w) srcs w)
          ((pairs_link sd w 0).zip (pairs_link sd w 1)))
          ((pairs_link sd w 2).zip (pairs_link sd w 3)))
        ((central_left sd w).zip (central_right sd w)) := rfl

theorem check_body_coverage (sd : SetupData) (st : ProtoState) :
    ∀ c ∈ combos sd st.world,
      already_scheduled (check_body sd st).world.queue c.1.id c.2.id = true := by
  intro c hc
  rw [check_body_eq]
  show already_scheduled (check_body_world st.num_memories st.sources sd st.world).queue
    c.1.id c.2.id = true
  rw [check_body_world_eq]
  unfold combos at hc
  rcases List.mem_append.mp hc with h1 | h23
  · rcases List.mem_append.mp h1 with h01 | h23i
    · apply do_swaps_already_mono
      apply do_swaps_already_mono
      exact do_swaps_coverage _ _ c h01
    · apply do_swaps_already_mono
      exact do_swaps_coverage _ _ c h23i
  · exact do_swaps_coverage _ _ c h23


theorem check_body_swap_count_of_coverage (sd : SetupData) (st : ProtoState)
    (h : ∀ c ∈ combos sd st.world, already_scheduled st.world.queue c.1.id c.2.id = true) :
    swap_count (check_body sd st).world = swap_count st.world := by
  rw [check_body_eq]
  show swap_count (check_body_world st.num_memories st.sources sd st.world) = _
  rw [check_body_world_eq]
  have hrep : ∀ lp rp : Nat,
      already_scheduled (replenish st.num_memories (links_used_list sd st.world)
        st.sources st.world).queue lp rp = already_scheduled st.world.queue lp rp :=
    fun lp rp => replenish_already_scheduled _ _ _ _ lp rp
  have h1 : do_swaps (replenish st.num_memories (links_used_list sd st.world)
      st.sources st.world) ((pairs_link sd st.world 0).zip (pairs_link sd st.world 1))
      = replenish st.num_memories (links_used_list sd st.world) st.sources st.world := by
    apply do_swaps_noadd
    intro c hc
    rw [hrep]
    exact h c (by unfold combos; simp only [List.mem_append]; exact Or.inl (Or.inl hc))
  rw [h1]
  have h2 : do_swaps (replenish st.num_memories (links_used_list sd st.world)
      st.sources st.world) ((pairs_link sd st.world 2).zip (pairs_link sd st.world 3))
      = replenish st.num_memories (links_used_list sd st.world) st.sources st.world := by
    apply do_swaps_noadd
    intro c hc
    rw [hrep]
    exact h c (by unfold combos; simp only [List.mem_append]; exact Or.inl (Or.inr hc))
  rw [h2]
  have h3 : do_swaps (replenish st.num_memories (links_used_list sd st.world)
      st.sources st.world) ((central_left sd st.world).zip (central_right sd st.world))
      = replenish st.num_memories (links_used_list sd st.world) st.sources st.world := by
    apply do_swaps_noadd
    intro c hc
    rw [hrep]
    exact h c (by unfold combos; simp only [List.mem_append]; exact Or.inr hc)
  rw [h3]
  unfold swap_count
  rw [← List.countP_eq_length_filter, ← List.countP_eq_length_filter]
  exact replenish_countP_source_false Event.isSwap (fun _ _ _ _ => rfl) _ _ _ _

/-- After any `check`, the world holds no pair between the two ground
endpoints. -/
theorem check_lrps_empty (sd : SetupData) (st : ProtoState) :
    get_pairs_between_stations (check sd st).world
      sd.station_ground_left sd.station_ground_right = [] := by
  rw [check_eq]
  split
  · rename_i h
    exact h
  · rw [get_pairs_congr (check_body_world_pair_objects sd _)]
    exact lrps_after_eval sd (check_body sd st)
      sd.station_ground_left sd.station_ground_right

/-- Every `check` result is the result of a final `check_body` run. -/
theorem check_is_body (sd : SetupData) (st : ProtoState) :
    ∃ y, check sd st = check_body sd y := by
  rw [check_eq]
  split
  · exact ⟨st, rfl⟩
  · exact ⟨_, rfl⟩

/-- C2: a second `check()` immediately after a first one, with no
intervening event resolution, schedules no new EntanglementSwappingEvent
for any already-covered (left, right) pair combination: the number of
pending swap events is unchanged by the second call. -/
theorem C2_swap_idempotence (sd : SetupData) (st : ProtoState) :
    swap_count (check sd (check sd st)).world = swap_count (check sd st).world := by
  obtain ⟨y, hy⟩ := check_is_body sd st
  have hz : lrpsOf sd (check sd st) = [] := by
    unfold lrpsOf
    rw [get_pairs_congr (check_body_world_pair_objects sd (check sd st))]
    exact check_lrps_empty sd st
  have hck : check sd (check sd st) = check_body sd (check sd st) := by
    rw [check_eq, if_pos hz]
  rw [hck]
  apply check_body_swap_count_of_coverage
  intro c hc
  have hpo : (check sd st).world.pair_objects = y.world.pair_objects := by
    rw [hy]
    exact check_body_world_pair_objects sd y
  rw [combos_congr hpo] at hc
  have hcov := check_body_coverage sd y c hc
  rw [← hy] at hcov
  exact hcov

/-- C5: with exactly one pair on link 1 and one on link 2 sharing the
relay station, and no pending swap event referencing both, one `check()`
schedules exactly one EntanglementSwappingEvent, referencing exactly
those two pairs, at the queue's current simulation time. -/
theorem C5_single_swap_scheduled (sd : SetupData) (st : ProtoState)
    (a b c d e : Nat) (p1 p2 : Pair)
    (hsd : sd = mkSetup a b c d e)
    (hab : a ≠ b) (hac : a ≠ c) (had : a ≠ d) (hae : a ≠ e)
    (hbc : b ≠ c) (hbd : b ≠ d) (hbe : b ≠ e)
    (hcd : c ≠ d) (hce : c ≠ e) (hde : d ≠ e)
    (hps : getPairs st.world = [p1, p2])
    (hp1 : p1.is_between_stations a b = true)
    (hp2 : p2.is_between_stations b c = true)
    (hsch : already_scheduled st.world.queue p1.id p2.id = false) :
    swap_count (check sd st).world = swap_count st.world + 1
    ∧ Event.swapEvent st.world.current_time [p1.id, p2.id] ∈ (check sd st).world.queue
    ∧ ∀ ev ∈ (check sd st).world.queue, ev.isSwap = true →
        ev ∈ st.world.queue ∨ ev = Event.swapEvent st.world.current_time [p1.id, p2.id] := by
  subst hsd
  have hbet : ∀ (p : Pair) (x y : Nat), p.is_between_stations x y = true ↔
      ((p.stationA = x ∧ p.stationB = y) ∨ (p.stationA = y ∧ p.stationB = x)) := by
    intro p x y
    simp [Pair.is_between_stations]
  have hq1 := (hbet p1 a b).mp hp1
  have hq2 := (hbet p2 b c).mp hp2
  have mkf : ∀ (p : Pair) (x y : Nat),
      (¬ ((p.stationA = x ∧ p.stationB = y) ∨ (p.stationA = y ∧ p.stationB = x))) →
      p.is_between_stations x y = false := by
    intro p x y hnot
    rw [Bool.eq_false_iff]
    intro hcontra
    exact hnot ((hbet p x y).mp hcontra)
  have f1 : p1.is_between_stations b c = false :=
    mkf p1 b c (by rcases hq1 with ⟨h1, h2⟩ | ⟨h1, h2⟩ <;> rw [h1, h2] <;> omega)
  have f2 : p2.is_between_stations a b = false :=
    mkf p2 a b (by rcases hq2 with ⟨h1, h2⟩ | ⟨h1, h2⟩ <;> rw [h1, h2] <;> omega)
  have f3 : p1.is_between_stations c d = false :=
    mkf p1 c d (by rcases hq1 with ⟨h1, h2⟩ | ⟨h1, h2⟩ <;> rw [h1, h2] <;> omega)
  have f4 : p2.is_between_stations c d = false :=
    mkf p2 c d (by rcases hq2 with ⟨h1, h2⟩ | ⟨h1, h2⟩ <;> rw [h1, h2] <;> omega)
  have f5 : p1.is_between_stations d e = false :=
    mkf p1 d e (by rcases hq1 with ⟨h1, h2⟩ | ⟨h1, h2⟩ <;> rw [h1, h2] <;> omega)
  have f6 : p2.is_between_stations d e = false :=
    mkf p2 d e (by rcases hq2 with ⟨h1, h2⟩ | ⟨h1, h2⟩ <;> rw [h1, h2] <;> omega)
  have f7 : p1.is_between_stations a c = false :=
    mkf p1 a c (by rcases hq1 with ⟨h1, h2⟩ | ⟨h1, h2⟩ <;> rw [h1, h2] <;> omega)
  have f8 : p2.is_between_stations a c = false :=
    mkf p2 a c (by rcases hq2 with ⟨h1, h2⟩ | ⟨h1, h2⟩ <;> rw [h1, h2] <;> omega)
  have f9 : p1.is_between_stations c e = false :=
    mkf p1 c e (by rcases hq1 with ⟨h1, h2⟩ | ⟨h1, h2⟩ <;> rw [h1, h2] <;> omega)
  have f10 : p2.is_between_stations c e = false :=
    mkf p2 c e (by rcases hq2 with ⟨h1, h2⟩ | ⟨h1, h2⟩ <;> rw [h1, h2] <;> omega)
  have f11 : p1.is_between_stations a e = false :=
    mkf p1 a e (by rcases hq1 with ⟨h1, h2⟩ | ⟨h1, h2⟩ <;> rw [h1, h2] <;> omega)
  have f12 : p2.is_between_stations a e = false :=
    mkf p2 a e (by rcases hq2 with ⟨h1, h2⟩ | ⟨h1, h2⟩ <;> rw [h1, h2] <;> omega)
  have hf : ∀ x y : Nat, get_pairs_between_stations st.world x y
      = [p1, p2].filter (fun p => p.is_between_stations x y) := by
    intro x y
    unfold get_pairs_between_stations
    rw [hps]
  have hl0 : get_pairs_between_stations st.world a b = [p1] := by
    rw [hf]
    simp [List.filter_cons, hp1, f2]
  have hl1 : get_pairs_between_stations st.world b c = [p2] := by
    rw [hf]
    simp [List.filter_cons, f1, hp2]
  have hl2 : get_pairs_between_stations st.world c d = [] := by
    rw [hf]
    simp [List.filter_cons, f3, f4]
  have hl3 : get_pairs_between_stations st.world d e = [] := by
    rw [hf]
    simp [List.filter_cons, f5, f6]
  have hcL : get_pairs_between_stations st.world a c = [] := by
    rw [hf]
    simp [List.filter_cons, f7, f8]
  have hcR : get_pairs_between_stations st.world c e = [] := by
    rw [hf]
    simp [List.filter_cons, f9, f10]
  have haeP : get_pairs_between_stations st.world a e = [] := by
    rw [hf]
    simp [List.filter_cons, f11, f12]
  have hpl0 : pairs_link (mkSetup a b c d e) st.world 0 = [p1] := hl0
  have hpl1 : pairs_link (mkSetup a b c d e) st.world 1 = [p2] := hl1
  have hpl2 : pairs_link (mkSetup a b c d e) st.world 2 = [] := hl2
  have hpl3 : pairs_link (mkSetup a b c d e) st.world 3 = [] := hl3
  have hclE : central_left (mkSetup a b c d e) st.world = [] := hcL
  have hcrE : central_right (mkSetup a b c d e) st.world = [] := hcR
  have hlr : lrpsOf (mkSetup a b c d e) st = [] := by
    unfold lrpsOf
    rw [get_pairs_congr (check_body_world_pair_objects (mkSetup a b c d e) st)]
    exact haeP
  have hchk : check (mkSetup a b c d e) st = check_body (mkSetup a b c d e) st := by
    rw [check_eq, if_pos hlr]
  set wr := replenish st.num_memories (links_used_list (mkSetup a b c d e) st.world)
    st.sources st.world with hwr
  have hbw : (check_body (mkSetup a b c d e) st).world = do_swaps wr [(p1, p2)] := by
    have h0 : (check_body (mkSetup a b c d e) st).world
        = check_body_world st.num_memories st.sources (mkSetup a b c d e) st.world := by
      rw [check_body_eq]
    rw [h0, check_body_world_eq, hpl0, hpl1, hpl2, hpl3, hclE, hcrE]
    rfl
  have hg : already_scheduled wr.queue p1.id p2.id = false := by
    rw [hwr, replenish_already_scheduled]
    exact hsch
  have hq : (check (mkSetup a b c d e) st).world.queue
      = EventQueue.add_event wr.queue (Event.swapEvent wr.current_time [p1.id, p2.id]) := by
    rw [hchk, hbw, do_swaps_cons]
    show (if already_scheduled wr.queue p1.id p2.id then wr
      else { wr with queue := EventQueue.add_event wr.queue (Event.swapEvent wr.current_time [p1.id, p2.id]) }).queue = _
    rw [hg]
    rfl
  have hct : wr.current_time = st.world.current_time := by
    rw [hwr]
    exact replenish_current_time _ _ _ _
  rw [hct] at hq
  refine ⟨?_, ?_, ?_⟩
  · unfold swap_count
    rw [hq, ← List.countP_eq_length_filter, ← List.countP_eq_length_filter,
      countP_add_event]
    have hsrcf : wr.queue.countP Event.isSwap = st.world.queue.countP Event.isSwap := by
      rw [hwr]
      exact replenish_countP_source_false Event.isSwap (fun _ _ _ _ => rfl) _ _ _ _
    rw [hsrcf]
    rfl
  · rw [hq]
    exact mem_add_event.mpr (Or.inr rfl)
  · intro ev hev hsw
    rw [hq] at hev
    rcases mem_add_event.mp hev with h1 | h1
    · rcases replenish_mem _ _ _ ev _ h1 with h2 | h2
      · exact Or.inl h2
      · rw [hsw] at h2
        cases h2
    · exact Or.inr h1

/-- Witness for C5 at the concrete two-pair world. -/
theorem C5_single_swap_scheduled_witness :
    already_scheduled (exState 2 exWorldC5).world.queue exPair1.id exPair2.id = false
    ∧ swap_count (check exSd (exState 2 exWorldC5)).world
        = swap_count (exState 2 exWorldC5).world + 1
    ∧ Event.swapEvent (exState 2 exWorldC5).world.current_time [exPair1.id, exPair2.id]
        ∈ (check exSd (exState 2 exWorldC5)).world.queue := by
  have h := C5_single_swap_scheduled exSd (exState 2 exWorldC5) 0 1 2 3 4 exPair1 exPair2
    rfl (by decide) (by decide) (by decide) (by decide) (by decide) (by decide) (by decide)
    (by decide) (by decide) (by decide) rfl rfl rfl rfl
  exact ⟨rfl, h.1, h.2.1⟩

theorem is_between_stations_iff (p : Pair) (x y : Nat) :
    p.is_between_stations x y = true ↔
      ((p.stationA = x ∧ p.stationB = y) ∨ (p.stationA = y ∧ p.stationB = x)) := by
  simp [Pair.is_between_stations]

theorem source_pred_same (x y : Nat) (t : ℚ) (sid : Nat) :
    source_pred x y (Event.sourceEvent t sid x y) = true := by
  simp [source_pred]

theorem source_pred_off (x y u v : Nat)
    (hnot : ¬ ((x = u ∨ x = v) ∧ (y = u ∨ y = v))) (t : ℚ) (sid : Nat) :
    source_pred x y (Event.sourceEvent t sid u v) = false := by
  rw [Bool.eq_false_iff]
  intro hx
  simp only [source_pred, Bool.and_eq_true, Bool.or_eq_true, beq_iff_eq] at hx
  exact hnot hx

theorem repl_step_countP (p : Event → Bool) (nm u : Nat) (t : Source) (w : World) :
    (repl_step nm u t w).queue.countP p
      = w.queue.countP p
        + (if u < nm then (nm - u) * (if p (Event.sourceEvent (w.current_time + t.delay)
            t.id t.target1 t.target2) then 1 else 0) else 0) := by
  unfold repl_step
  split
  · rw [scheduleN_countP]
  · simp

theorem repl_step_ct (nm u : Nat) (t : Source) (w : World) :
    (repl_step nm u t w).current_time = w.current_time := by
  unfold repl_step
  split
  · exact scheduleN_current_time _ _ _
  · rfl

theorem repl_four_countP (p : Event → Bool) (nm u0 u1 u2 u3 : Nat)
    (t0 t1 t2 t3 : Source) (w : World) :
    (replenish nm [u0, u1, u2, u3] [t0, t1, t2, t3] w).queue.countP p
      = w.queue.countP p
        + (if u0 < nm then (nm - u0) * (if p (Event.sourceEvent (w.current_time + t0.delay)
            t0.id t0.target1 t0.target2) then 1 else 0) else 0)
        + (if u1 < nm then (nm - u1) * (if p (Event.sourceEvent (w.current_time + t1.delay)
            t1.id t1.target1 t1.target2) then 1 else 0) else 0)
        + (if u2 < nm then (nm - u2) * (if p (Event.sourceEvent (w.current_time + t2.delay)
            t2.id t2.target1 t2.target2) then 1 else 0) else 0)
        + (if u3 < nm then (nm - u3) * (if p (Event.sourceEvent (w.current_time + t3.delay)
            t3.id t3.target1 t3.target2) then 1 else 0) else 0) := by
  have h4 : replenish nm [u0, u1, u2, u3] [t0, t1, t2, t3] w
      = repl_step nm u3 t3 (repl_step nm u2 t2 (repl_step nm u1 t1 (repl_step nm u0 t0 w))) :=
    rfl
  rw [h4, repl_step_countP, repl_step_ct, repl_step_ct, repl_step_ct,
    repl_step_countP, repl_step_ct, repl_step_ct,
    repl_step_countP, repl_step_ct,
    repl_step_countP]

theorem gs_congr {w1 w2 : World} (h : w1.queue = w2.queue) (x y : Nat) :
    get_pairs_scheduled w1 x y = get_pairs_scheduled w2 x y := by
  unfold get_pairs_scheduled
  rw [h]

/-- Destroying the pairs between two stations leaves every other
betweenness query unchanged, provided pair identities are unique and no
pair can be between both station pairs at once. -/
theorem gp_eval_preserved (sd : SetupData) (st1 : ProtoState) (x y ga ge : Nat)
    (hids : ((getPairs st1.world).map Pair.id).Nodup)
    (hdisj : ∀ p : Pair, p.is_between_stations x y = true →
      p.is_between_stations ga ge = true → False) :
    get_pairs_between_stations
        (eval_all sd (get_pairs_between_stations st1.world ga ge) st1).world x y
      = get_pairs_between_stations st1.world x y := by
  unfold get_pairs_between_stations
  rw [eval_all_pairs, List.filter_filter]
  apply List.filter_congr
  intro p hp
  cases hb : p.is_between_stations x y
  · rw [Bool.false_and]
  · rw [Bool.true_and]
    rw [List.all_eq_true]
    intro q hq
    have hqmem : q ∈ getPairs st1.world := (List.mem_filter.mp hq).1
    have hqbet : q.is_between_stations ga ge = true := (List.mem_filter.mp hq).2
    by_contra hne
    simp only [bne_iff_ne, ne_eq, not_not] at hne
    have hpq : p = q := List.inj_on_of_nodup_map hids hp hqmem hne
    rw [hpq] at hb
    exact hdisj q hb hqbet

/-- Effect of one `check_body` run on a link's usage count: an
under-capacity link is topped up to exactly `num_memories`, any other
link is left unchanged. -/
theorem check_body_link_used (st : ProtoState) (a b c d e : Nat)
    (t0 t1 t2 t3 : Source) (i : Nat)
    (hsrc : st.sources = [t0, t1, t2, t3])
    (h0a : t0.target1 = a) (h0b : t0.target2 = b)
    (h1a : t1.target1 = b) (h1b : t1.target2 = c)
    (h2a : t2.target1 = c) (h2b : t2.target2 = d)
    (h3a : t3.target1 = d) (h3b : t3.target2 = e)
    (hab : a ≠ b) (hac : a ≠ c) (had : a ≠ d) (hae : a ≠ e)
    (hbc : b ≠ c) (hbd : b ≠ d) (hbe : b ≠ e)
    (hcd : c ≠ d) (hce : c ≠ e) (hde : d ≠ e)
    (hi : i < 4) :
    link_used (mkSetup a b c d e) (check_body (mkSetup a b c d e) st).world i
      = if link_used (mkSetup a b c d e) st.world i < st.num_memories
        then st.num_memories else link_used (mkSetup a b c d e) st.world i := by
  have hpo : (check_body (mkSetup a b c d e) st).world.pair_objects
      = st.world.pair_objects := check_body_world_pair_objects _ _
  have hqc : ∀ x y : Nat,
      (check_body (mkSetup a b c d e) st).world.queue.countP (source_pred x y)
        = (replenish st.num_memories (links_used_list (mkSetup a b c d e) st.world)
            st.sources st.world).queue.countP (source_pred x y) := by
    intro x y
    have hb : (check_body (mkSetup a b c d e) st).world
        = check_body_world st.num_memories st.sources (mkSetup a b c d e) st.world := by
      rw [check_body_eq]
    rw [hb, check_body_world_eq,
      do_swaps_countP_swap_false _ (fun _ _ => rfl),
      do_swaps_countP_swap_false _ (fun _ _ => rfl),
      do_swaps_countP_swap_false _ (fun _ _ => rfl)]
  have hLU : links_used_list (mkSetup a b c d e) st.world
      = [link_used (mkSetup a b c d e) st.world 0, link_used (mkSetup a b c d e) st.world 1,
         link_used (mkSetup a b c d e) st.world 2,
         link_used (mkSetup a b c d e) st.world 3] := rfl
  have hu0eq : link_used (mkSetup a b c d e) st.world 0
      = (get_pairs_between_stations st.world a b).length
        + st.world.queue.countP (source_pred a b) := by
    show (get_pairs_between_stations st.world a b).length
      + (List.filter (source_pred a b) st.world.queue).length = _
    rw [← List.countP_eq_length_filter]
  have hu1eq : link_used (mkSetup a b c d e) st.world 1
      = (get_pairs_between_stations st.world b c).length
        + st.world.queue.countP (source_pred b c) := by
    show (get_pairs_between_stations st.world b c).length
      + (List.filter (source_pred b c) st.world.queue).length = _
    rw [← List.countP_eq_length_filter]
  have hu2eq : link_used (mkSetup a b c d e) st.world 2
      = (get_pairs_between_stations st.world c d).length
        + st.world.queue.countP (source_pred c d) := by
    show (get_pairs_between_stations st.world c d).length
      + (List.filter (source_pred c d) st.world.queue).length = _
    rw [← List.countP_eq_length_filter]
  have hu3eq : link_used (mkSetup a b c d e) st.world 3
      = (get_pairs_between_stations st.world d e).length
        + st.world.queue.countP (source_pred d e) := by
    show (get_pairs_between_stations st.world d e).length
      + (List.filter (source_pred d e) st.world.queue).length = _
    rw [← List.countP_eq_length_filter]
  interval_cases i
  · have hL : link_used (mkSetup a b c d e) (check_body (mkSetup a b c d e) st).world 0
        = (get_pairs_between_stations st.world a b).length
          + (check_body (mkSetup a b c d e) st).world.queue.countP (source_pred a b) := by
      show (get_pairs_between_stations (check_body (mkSetup a b c d e) st).world a b).length
        + (List.filter (source_pred a b)
            (check_body (mkSetup a b c d e) st).world.queue).length = _
      rw [← List.countP_eq_length_filter, get_pairs_congr hpo a b]
    have e00 := source_pred_same a b (st.world.current_time + t0.delay) t0.id
    have e01 := source_pred_off a b b c (by omega) (st.world.current_time + t1.delay) t1.id
    have e02 := source_pred_off a b c d (by omega) (st.world.current_time + t2.delay) t2.id
    have e03 := source_pred_off a b d e (by omega) (st.world.current_time + t3.delay) t3.id
    rw [hL, hqc a b, hsrc, hLU, repl_four_countP, h0a, h0b, h1a, h1b, h2a, h2b, h3a, h3b]
    simp only [e00, e01, e02, e03]
    by_cases hcase : link_used (mkSetup a b c d e) st.world 0 < st.num_memories
    · simp only [if_pos hcase]
      simp only [hu0eq] at hcase ⊢
      simp
      omega
    · simp only [if_neg hcase]
      simp only [hu0eq] at hcase ⊢
      simp
  · have hL : link_used (mkSetup a b c d e) (check_body (mkSetup a b c d e) st).world 1
        = (get_pairs_between_stations st.world b c).length
          + (check_body (mkSetup a b c d e) st).world.queue.countP (source_pred b c) := by
      show (get_pairs_between_stations (check_body (mkSetup a b c d e) st).world b c).length
        + (List.filter (source_pred b c)
            (check_body (mkSetup a b c d e) st).world.queue).length = _
      rw [← List.countP_eq_length_filter, get_pairs_congr hpo b c]
    have e00 := source_pred_off b c a b (by omega) (st.world.current_time + t0.delay) t0.id
    have e01 := source_pred_same b c (st.world.current_time + t1.delay) t1.id
    have e02 := source_pred_off b c c d (by omega) (st.world.current_time + t2.delay) t2.id
    have e03 := source_pred_off b c d e (by omega) (st.world.current_time + t3.delay) t3.id
    rw [hL, hqc b c, hsrc, hLU, repl_four_countP, h0a, h0b, h1a, h1b, h2a, h2b, h3a, h3b]
    simp only [e00, e01, e02, e03]
    by_cases hcase : link_used (mkSetup a b c d e) st.world 1 < st.num_memories
    · simp only [if_pos hcase]
      simp only [hu1eq] at hcase ⊢
      simp
      omega
    · simp only [if_neg hcase]
      simp only [hu1eq] at hcase ⊢
      simp
  · have hL : link_used (mkSetup a b c d e) (check_body (mkSetup a b c d e) st).world 2
        = (get_pairs_between_stations st.world c d).length
          + (check_body (mkSetup a b c d e) st).world.queue.countP (source_pred c d) := by
      show (get_pairs_between_stations (check_body (mkSetup a b c d e) st).world c d).length
        + (List.filter (source_pred c d)
            (check_body (mkSetup a b c d e) st).world.queue).length = _
      rw [← List.countP_eq_length_filter, get_pairs_congr hpo c d]
    have e00 := source_pred_off c d a b (by omega) (st.world.current_time + t0.delay) t0.id
    have e01 := source_pred_off c d b c (by omega) (st.world.current_time + t1.delay) t1.id
    have e02 := source_pred_same c d (st.world.current_time + t2.delay) t2.id
    have e03 := source_pred_off c d d e (by omega) (st.world.current_time + t3.delay) t3.id
    rw [hL, hqc c d, hsrc, hLU, repl_four_countP, h0a, h0b, h1a, h1b, h2a, h2b, h3a, h3b]
    simp only [e00, e01, e02, e03]
    by_cases hcase : link_used (mkSetup a b c d e) st.world 2 < st.num_memories
    · simp only [if_pos hcase]
      simp only [hu2eq] at hcase ⊢
      simp
      omega
    · simp only [if_neg hcase]
      simp only [hu2eq] at hcase ⊢
      simp
  · have hL : link_used (mkSetup a b c d e) (check_body (mkSetup a b c d e) st).world 3
        = (get_pairs_between_stations st.world d e).length
          + (check_body (mkSetup a b c d e) st).world.queue.countP (source_pred d e) := by
      show (get_pairs_between_stations (check_body (mkSetup a b c d e) st).world d e).length
        + (List.filter (source_pred d e)
            (check_body (mkSetup a b c d e) st).world.queue).length = _
      rw [← List.countP_eq_length_filter, get_pairs_congr hpo d e]
    have e00 := source_pred_off d e a b (by omega) (st.world.current_time + t0.delay) t0.id
    have e01 := source_pred_off d e b c (by omega) (st.world.current_time + t1.delay) t1.id
    have e02 := source_pred_off d e c d (by omega) (st.world.current_time + t2.delay) t2.id
    have e03 := source_pred_same d e (st.world.current_time + t3.delay) t3.id
    rw [hL, hqc d e, hsrc, hLU, repl_four_countP, h0a, h0b, h1a, h1b, h2a, h2b, h3a, h3b]
    simp only [e00, e01, e02, e03]
    by_cases hcase : link_used (mkSetup a b c d e) st.world 3 < st.num_memories
    · simp only [if_pos hcase]
      simp only [hu3eq] at hcase ⊢
      simp
      omega
    · simp only [if_neg hcase]
      simp only [hu3eq] at hcase ⊢
      simp

/-- The cleanup of long-range pairs does not change any link's usage
count: it touches no queue entry, and under unique pair identities no
destroyed pair sits on a link of the (distinct-station) chain. -/
theorem link_used_eval (st1 : ProtoState) (a b c d e : Nat) (i : Nat) (L : List Pair)
    (hab : a ≠ b) (hac : a ≠ c) (had : a ≠ d) (hae : a ≠ e)
    (hbc : b ≠ c) (hbd : b ≠ d) (hbe : b ≠ e)
    (hcd : c ≠ d) (hce : c ≠ e) (hde : d ≠ e)
    (hids : ((getPairs st1.world).map Pair.id).Nodup)
    (hL : L = get_pairs_between_stations st1.world a e)
    (hi : i < 4) :
    link_used (mkSetup a b c d e) (eval_all (mkSetup a b c d e) L st1).world i
      = link_used (mkSetup a b c d e) st1.world i := by
  subst hL
  have hq := eval_all_queue (mkSetup a b c d e)
    (get_pairs_between_stations st1.world a e) st1
  have hgs : ∀ x y : Nat,
      get_pairs_scheduled (eval_all (mkSetup a b c d e)
        (get_pairs_between_stations st1.world a e) st1).world x y
      = get_pairs_scheduled st1.world x y := fun x y => gs_congr hq x y
  interval_cases i
  · have hgp := gp_eval_preserved (mkSetup a b c d e) st1 a b a e hids (by
      intro p h1 h2
      rw [is_between_stations_iff] at h1 h2
      omega)
    show (get_pairs_between_stations _ a b).length
        + (get_pairs_scheduled _ a b).length = _
    rw [hgp, hgs a b]
    rfl
  · have hgp := gp_eval_preserved (mkSetup a b c d e) st1 b c a e hids (by
      intro p h1 h2
      rw [is_between_stations_iff] at h1 h2
      omega)
    show (get_pairs_between_stations _ b c).length
        + (get_pairs_scheduled _ b c).length = _
    rw [hgp, hgs b c]
    rfl
  · have hgp := gp_eval_preserved (mkSetup a b c d e) st1 c d a e hids (by
      intro p h1 h2
      rw [is_between_stations_iff] at h1 h2
      omega)
    show (get_pairs_between_stations _ c d).length
        + (get_pairs_scheduled _ c d).length = _
    rw [hgp, hgs c d]
    rfl
  · have hgp := gp_eval_preserved (mkSetup a b c d e) st1 d e a e hids (by
      intro p h1 h2
      rw [is_between_stations_iff] at h1 h2
      omega)
    show (get_pairs_between_stations _ d e).length
        + (get_pairs_scheduled _ d e).length = _
    rw [hgp, hgs d e]
    rfl

/-- C1 counterexample: a world already over capacity on link 1
(two pairs, `num_memories = 1`) still exceeds `num_memories` after
`check()`: the claimed unconditional upper bound is false. -/
theorem C1_counterexample :
    0 < (exState 1 exWorldC1).num_memories
    ∧ ¬ (link_used exSd (check exSd (exState 1 exWorldC1)).world 0
          ≤ (exState 1 exWorldC1).num_memories) := by
  constructor
  · decide
  · with_unfolding_all decide

/-- C1 amended: after one `check()`, a link that entered below capacity
holds exactly `num_memories` (pairs plus scheduled source events), and a
link that entered at or above capacity is left unchanged — it is not
reduced to `num_memories`. -/
theorem C1_amended (sd : SetupData) (st : ProtoState) (a b c d e : Nat)
    (t0 t1 t2 t3 : Source) (i : Nat)
    (hsd : sd = mkSetup a b c d e)
    (hsrc : st.sources = [t0, t1, t2, t3])
    (h0a : t0.target1 = a) (h0b : t0.target2 = b)
    (h1a : t1.target1 = b) (h1b : t1.target2 = c)
    (h2a : t2.target1 = c) (h2b : t2.target2 = d)
    (h3a : t3.target1 = d) (h3b : t3.target2 = e)
    (hab : a ≠ b) (hac : a ≠ c) (had : a ≠ d) (hae : a ≠ e)
    (hbc : b ≠ c) (hbd : b ≠ d) (hbe : b ≠ e)
    (hcd : c ≠ d) (hce : c ≠ e) (hde : d ≠ e)
    (hids : ((getPairs st.world).map Pair.id).Nodup)
    (hnm : 0 < st.num_memories)
    (hi : i < 4) :
    link_used sd (check sd st).world i
      = if link_used sd st.world i < st.num_memories then st.num_memories
        else link_used sd st.world i := by
  subst hsd
  have hA := check_body_link_used st a b c d e t0 t1 t2 t3 i hsrc
    h0a h0b h1a h1b h2a h2b h3a h3b hab hac had hae hbc hbd hbe hcd hce hde hi
  rw [check_eq]
  split
  · exact hA
  · have hsrc2 : (eval_all (mkSetup a b c d e) (lrpsOf (mkSetup a b c d e) st)
        (check_body (mkSetup a b c d e) st)).sources = [t0, t1, t2, t3] := by
      rw [eval_all_sources, check_body_sources]
      exact hsrc
    have hA2 := check_body_link_used (eval_all (mkSetup a b c d e)
        (lrpsOf (mkSetup a b c d e) st) (check_body (mkSetup a b c d e) st))
      a b c d e t0 t1 t2 t3 i hsrc2
      h0a h0b h1a h1b h2a h2b h3a h3b hab hac had hae hbc hbd hbe hcd hce hde hi
    rw [hA2]
    have hnm2 : (eval_all (mkSetup a b c d e) (lrpsOf (mkSetup a b c d e) st)
        (check_body (mkSetup a b c d e) st)).num_memories = st.num_memories := by
      rw [eval_all_num_memories, check_body_num_memories]
    have hids1 : ((getPairs (check_body (mkSetup a b c d e) st).world).map Pair.id).Nodup := by
      rw [getPairs_congr (check_body_world_pair_objects (mkSetup a b c d e) st)]
      exact hids
    have heval := link_used_eval (check_body (mkSetup a b c d e) st) a b c d e i
      (lrpsOf (mkSetup a b c d e) st) hab hac had hae hbc hbd hbe hcd hce hde hids1 rfl hi
    rw [heval, hnm2, hA]
    by_cases hcase : link_used (mkSetup a b c d e) st.world i < st.num_memories
    · simp only [if_pos hcase]
      simp [Nat.lt_irrefl]
    · simp only [if_neg hcase]

/-- Witness for C1 amended: the fresh reference scenario enters below
capacity on link 1 and is topped up to exactly `num_memories = 2`. -/
theorem C1_amended_witness :
    link_used exSd (check exSd (exState 2 exWorld0)).world 0 = 2 := by
  have h := C1_amended exSd (exState 2 exWorld0) 0 1 2 3 4
    ⟨10, 0, 1, 0, true⟩ ⟨11, 1, 2, 0, true⟩ ⟨12, 2, 3, 0, true⟩ ⟨13, 3, 4, 0, true⟩ 0
    rfl rfl rfl rfl rfl rfl rfl rfl rfl rfl
    (by decide) (by decide) (by decide) (by decide) (by decide) (by decide) (by decide)
    (by decide) (by decide) (by decide) (by decide) (by decide) (by decide)
  rw [h]
  decide
